import Mathlib

/-!
Verification development for the RaceFlow congestion analytics core.

The definitions below are a shallow embedding of the TypeScript source:
 * geometry helpers `pointToSegmentDistSq` / `segmentToSegmentDistSq`
   (src/components/MapView.tsx lines 37-78),
 * the per-agent proximity density loop (MapView.tsx lines 385-410),
 * the spatial segment-grouping pass `segmentSpatialGroups`
   (MapView.tsx lines 141-269),
 * the per-frame statistics state machine of `draw`
   (MapView.tsx lines 412-537) together with the group-level reporting
   (lines 540-568),
 * `runnerDistanceMeters` (src/sim/sim.ts) and `positionAtDistance`
   (src/sim/route.ts lines 66-101).

Numbers are embedded as rationals: every arithmetic operation performed by
the source on IEEE doubles is mirrored exactly on `ℚ` (the source's
constants 1e-9, 1e-6, 0.25, 0.5, 0.75 … are the rationals 1/10^9, 1/10^6,
1/4, …).  Planar coordinates are taken in the local tangent plane: the
lat/lng → plane conversion (a fixed scaling by earthRadius·π/180 and
cos(refLat), MapView.tsx lines 146-164 and 368-394) is the transcendental
projection step that produces these coordinates and is treated as input
preprocessing here; all grouping / distance / density logic downstream of
it is embedded verbatim.

Definitions marked `Modelled from the claim's words` are *not* translations
of the source; they restate a claim's own formula so that the claim can be
compared against the source behaviour (refinement comparison).
-/

namespace RaceFlow

/-- Embedding of `pointToSegmentDistSq` (MapView.tsx 37-61): squared distance
from the point `(px,py)` to the segment `(ax,ay)-(bx,byy)`; segments whose
squared length is ≤ 1e-9 are treated as points, otherwise the projection
parameter is clamped to `[0,1]`. -/
def pointToSegmentDistSq (px py ax ay bx byy : ℚ) : ℚ :=
  let abx := bx - ax
  let aby := byy - ay
  let apx := px - ax
  let apy := py - ay
  let abLenSq := abx * abx + aby * aby
  if abLenSq ≤ 1 / 1000000000 then
    (px - ax) * (px - ax) + (py - ay) * (py - ay)
  else
    let t := max 0 (min 1 ((apx * abx + apy * aby) / abLenSq))
    let cx := ax + t * abx
    let cy := ay + t * aby
    (px - cx) * (px - cx) + (py - cy) * (py - cy)

/-- Embedding of `segmentToSegmentDistSq` (MapView.tsx 63-78): the minimum of
the four endpoint-to-segment squared distances. -/
def segmentToSegmentDistSq (a0x a0y a1x a1y b0x b0y b1x b1y : ℚ) : ℚ :=
  let d1 := pointToSegmentDistSq a0x a0y b0x b0y b1x b1y
  let d2 := pointToSegmentDistSq a1x a1y b0x b0y b1x b1y
  let d3 := pointToSegmentDistSq b0x b0y a0x a0y a1x a1y
  let d4 := pointToSegmentDistSq b1x b1y a0x a0y a1x a1y
  min (min (min d1 d2) d3) d4

/-- Modelled from the claim's words (C6): the same four point-to-segment
distances, but "averaged over the two pairing orientations … taking the
cheaper": the forward orientation pairs the first endpoints (d1 with d3),
the reversed orientation pairs the second endpoints (d2 with d4), and the
cheaper orientation average is returned. -/
def claimOrientationDistSq (a0x a0y a1x a1y b0x b0y b1x b1y : ℚ) : ℚ :=
  let d1 := pointToSegmentDistSq a0x a0y b0x b0y b1x b1y
  let d2 := pointToSegmentDistSq a1x a1y b0x b0y b1x b1y
  let d3 := pointToSegmentDistSq b0x b0y a0x a0y a1x a1y
  let d4 := pointToSegmentDistSq b1x b1y a0x a0y a1x a1y
  min ((d1 + d3) / 2) ((d2 + d4) / 2)

/-! ### Proximity density engine (MapView.tsx 385-410)

The per-agent densities: every agent starts at 1 (line 395), then the
`i < j` double loop increments both members of every pair whose squared
planar distance is within `radius²`, and at the end of each outer iteration
`densityPerRunner[i]` is multiplied by `1 / max(1e-6, radius)` (line 409).
Positions are the projected planar coordinates `(x, y)` in meters. -/

/-- Squared planar distance between positions `i` and `j` of the position
list, exactly as the loop body computes it (line 402-404). -/
def pairDistSq (ps : List (ℚ × ℚ)) (i j : ℕ) : ℚ :=
  let pi' := ps.getD i (0, 0)
  let pj := ps.getD j (0, 0)
  (pi'.1 - pj.1) * (pi'.1 - pj.1) + (pi'.2 - pj.2) * (pi'.2 - pj.2)

/-- The inner `j` loop of the density pass at outer index `i`: `js` is the
list of remaining inner indices (source: `j = i+1 … n-1`); each pair within
`radiusSq` increments both `dens i` and `dens j` (MapView.tsx 404-407). -/
def densityInner (ps : List (ℚ × ℚ)) (radiusSq : ℚ) (i : ℕ)
    (dens : ℕ → ℚ) (js : List ℕ) : ℕ → ℚ :=
  match js with
  | [] => dens
  | j :: rest =>
    densityInner ps radiusSq i
      (if pairDistSq ps i j ≤ radiusSq then
        fun k => if k = i then dens k + 1 else if k = j then dens k + 1
                 else dens k
      else dens) rest

/-- One outer iteration of the density pass (MapView.tsx 398-410): run the
inner pair loop for index `i` over the remaining indices `i+1 … n-1`, then
multiply entry `i` by `invDensityRadius` (line 409). -/
def densityOuterStep (ps : List (ℚ × ℚ)) (radiusSq invDensityRadius : ℚ)
    (dens : ℕ → ℚ) (i : ℕ) : ℕ → ℚ :=
  let d1 := densityInner ps radiusSq i dens
    (List.range' (i + 1) (ps.length - (i + 1)))
  fun k => if k = i then d1 i * invDensityRadius else d1 k

/-- Embedding of the density double loop (MapView.tsx 395-410): all densities
start at 1; the outer loop runs the inner pair loop and then multiplies
entry `i` by `invDensityRadius = 1 / max(1e-6, radius)` (lines 367, 409). -/
def runnerDensities (ps : List (ℚ × ℚ)) (radius : ℚ) : ℕ → ℚ :=
  (List.range ps.length).foldl
    (densityOuterStep ps (radius * radius) (1 / max (1 / 1000000) radius))
    (fun _ => 1)

/-- Modelled from the claim's words (C9): self-count 1 plus the number of
other agents within `radius²`, "divided by the radius" (with no epsilon
guard on the divisor). -/
def claimRunnerDensity (ps : List (ℚ × ℚ)) (radius : ℚ) (i : ℕ) : ℚ :=
  (1 + ((List.range ps.length).countP
    (fun j => decide (j ≠ i ∧ pairDistSq ps i j ≤ radius * radius)) : ℚ)) / radius

/-! ### Division guards (C5)

The source divides in four places reachable from configuration values:
`segmentCount` (line 129), the runner→segment index (line 432), the
per-frame density `count / segmentLengthMeters` (lines 438, 460), and the
density normalisation `1 / Math.max(1e-6, densityRadiusMeters)` (line 367).
In JS a zero denominator yields Infinity/NaN; the embedding makes each
division fallible so that "divides by zero" is observable as `none`. -/

/-- A JS division that records a zero denominator instead of producing an
Infinity/NaN value. -/
def jsDiv (a b : ℚ) : Option ℚ := if b = 0 then none else some (a / b)

/-- `segmentCount` (MapView.tsx 129) with its division made fallible:
`Math.max(1, Math.ceil(total / segmentLengthMeters))`. -/
def segmentCountChecked (total L : ℚ) : Option ℕ :=
  (jsDiv total L).map (fun q => max 1 ⌈q⌉.toNat)

/-- The runner→segment index (MapView.tsx 430-433) with its division made
fallible: `min(segmentCount-1, max(0, floor(d / segmentLengthMeters)))`. -/
def segIndexChecked (d L : ℚ) (n : ℕ) : Option ℕ :=
  (jsDiv d L).map (fun q => (min ((n : ℤ) - 1) (max 0 ⌊q⌋)).toNat)

/-- The per-frame density (MapView.tsx 438, 460) with its division made
fallible: `segmentTmpCount[i] / segmentLengthMeters`. -/
def frameDensityChecked (c : ℕ) (L : ℚ) : Option ℚ := jsDiv (c : ℚ) L

/-- The density normalisation divisor (MapView.tsx 367): this one *is*
guarded, `1 / Math.max(1e-6, densityRadiusMeters)`. -/
def invDensityRadiusChecked (r : ℚ) : Option ℚ := jsDiv 1 (max (1 / 1000000) r)

/-! ### Histogram statistics (MapView.tsx 123-127, 506-536) -/

/-- `HIST_BIN_WIDTH = 0.25` (line 123). -/
def HIST_BIN_WIDTH : ℚ := 1 / 4

/-- `HIST_MAX_VALUE = 50` (line 124). -/
def HIST_MAX_VALUE : ℚ := 50

/-- `HIST_BIN_COUNT = floor(HIST_MAX_VALUE / HIST_BIN_WIDTH) + 1 = 201`
(line 125). -/
def HIST_BIN_COUNT : ℕ := ⌊HIST_MAX_VALUE / HIST_BIN_WIDTH⌋.toNat + 1

/-- `WINDOW_SECONDS = 180` (line 126). -/
def WINDOW_SECONDS : ℚ := 180

/-- `SAMPLE_INTERVAL_SECONDS = 1` (line 127). -/
def SAMPLE_INTERVAL_SECONDS : ℚ := 1

/-- The histogram bin of a (positive) density sample (MapView.tsx 468):
`min(HIST_BIN_COUNT - 1, floor(density / HIST_BIN_WIDTH))`. -/
def histBinOf (density : ℚ) : ℕ :=
  min (HIST_BIN_COUNT - 1) ⌊density / HIST_BIN_WIDTH⌋.toNat

/-- The low-to-high percentile scan (MapView.tsx 515-520): starting at bin
`binIdx` with partial count `cum` and `remaining` bins left, return the
first bin index at which the cumulative count reaches `target`; if the bins
are exhausted the index has run past the last bin, as in the source's
`for` loop. -/
def histScanLoop (hist : ℕ → ℕ) (target cum binIdx remaining : ℕ) : ℕ :=
  if remaining = 0 then binIdx
  else if target ≤ cum + hist binIdx then binIdx
  else histScanLoop hist target (cum + hist binIdx) (binIdx + 1) (remaining - 1)
termination_by remaining
decreasing_by
  have : remaining ≠ 0 := by assumption
  omega

/-- The percentile value at rank `p` (MapView.tsx 513-522, where `p = 0.9`):
target rank `ceil(total·p)`, scan bins low-to-high, report the stopping
bin's midpoint capped at `HIST_MAX_VALUE`. -/
def percentileValue (hist : ℕ → ℕ) (total : ℕ) (p : ℚ) : ℚ :=
  let target := ⌈(total : ℚ) * p⌉.toNat
  let b := histScanLoop hist target 0 0 HIST_BIN_COUNT
  min HIST_MAX_VALUE (((b : ℚ) + 1 / 2) * HIST_BIN_WIDTH)

/-- The high-to-low top-fraction scan (MapView.tsx 527-535): `fuel` is
`binIdx + 1` for the current bin, so the loop visits bins
`HIST_BIN_COUNT-1 … 0` while samples remain to be consumed. -/
def topScanLoop (hist : ℕ → ℕ) (fuel remaining : ℕ) (sum : ℚ) : ℚ :=
  if fuel = 0 ∨ remaining = 0 then sum
  else
    let binIdx := fuel - 1
    let c := hist binIdx
    if c = 0 then topScanLoop hist (fuel - 1) remaining sum
    else
      let take := min remaining c
      let binCenter := min HIST_MAX_VALUE (((binIdx : ℚ) + 1 / 2) * HIST_BIN_WIDTH)
      topScanLoop hist (fuel - 1) (remaining - take) (sum + (take : ℚ) * binCenter)
termination_by fuel
decreasing_by
  all_goals
    have : fuel ≠ 0 := by tauto
    omega

/-- The top-30% mean (MapView.tsx 525-536): mean of the highest
`max(1, ceil(total·0.3))` histogram samples, consuming bins high-to-low. -/
def topFractionValue (hist : ℕ → ℕ) (total : ℕ) : ℚ :=
  let topCount := max 1 ⌈(total : ℚ) * (3 / 10)⌉.toNat
  topScanLoop hist HIST_BIN_COUNT topCount 0 / (topCount : ℚ)

/-! ### Agents (src/sim/sim.ts) -/

/-- An agent: start time in seconds and pace in seconds per kilometer. -/
structure Runner where
  startTimeSeconds : ℚ
  paceSecPerKm : ℚ
deriving DecidableEq

/-- Embedding of `runnerDistanceMeters` (sim.ts 41-52): distance along the
path at simulated time `tSec`, clamped to `[0, routeLenMeters]`. -/
def runnerDistanceMeters (r : Runner) (tSec routeLenMeters : ℚ) : ℚ :=
  let elapsed := max 0 (tSec - r.startTimeSeconds)
  let speedMps := 1000 / r.paceSecPerKm
  let d := elapsed * speedMps
  if d ≤ 0 then 0
  else if routeLenMeters ≤ d then routeLenMeters
  else d

/-! ### Temporal aggregator (MapView.tsx 412-537)

The statistics state mutated by `draw` each frame.  The per-segment typed
arrays of the source become functions `ℕ → _` (every loop writes index `i`
only for `i < segmentCount`, so the functional update is index-wise
faithful); the window queue `windowSamplesRef` becomes a list of
`(simTime, snapshot)` pairs.  `windowCount` uses `ℕ` with truncated
subtraction where the source uses a `Uint32Array`; the decrement sites are
only reached when the count is positive (the queue-consistency invariant
proved below), where the two agree. -/

/-- Configuration reaching the aggregator: the agent pool, the route's
total length, and the configured segment length. -/
structure AggConfig where
  runners : List Runner
  total : ℚ
  segmentLengthMeters : ℚ

/-- `segmentCount` (MapView.tsx 129): `max(1, ceil(total / L))` for a loaded
route. -/
def segmentCount (cfg : AggConfig) : ℕ :=
  max 1 ⌈cfg.total / cfg.segmentLengthMeters⌉.toNat

/-- The segment index of a runner distance (MapView.tsx 430-433):
`min(segmentCount - 1, max(0, floor(d / segmentLengthMeters)))`. -/
def segIndexOf (cfg : AggConfig) (d : ℚ) : ℕ :=
  (min ((segmentCount cfg : ℤ) - 1) (max 0 ⌊d / cfg.segmentLengthMeters⌋)).toNat

/-- The per-frame occupancy `segmentTmpCount[i]` (MapView.tsx 427-435): the
number of runners whose current distance falls in segment `i`. -/
def segmentTmpCount (cfg : AggConfig) (t : ℚ) (i : ℕ) : ℕ :=
  cfg.runners.countP
    (fun r => decide (segIndexOf cfg (runnerDistanceMeters r t cfg.total) = i))

/-- The instantaneous per-frame density of segment `i`
(MapView.tsx 438, 460): `segmentTmpCount[i] / segmentLengthMeters`. -/
def frameDensity (cfg : AggConfig) (t : ℚ) (i : ℕ) : ℚ :=
  (segmentTmpCount cfg t i : ℚ) / cfg.segmentLengthMeters

/-- The aggregator's mutable state: one field per ref of the source
(MapView.tsx 105-120). -/
structure AggState where
  seen : ℕ → Bool
  sumDensity : ℕ → ℚ
  sampleCount : ℕ → ℕ
  maxDensity : ℕ → ℚ
  nonZeroSum : ℕ → ℚ
  nonZeroCount : ℕ → ℕ
  windowSum : ℕ → ℚ
  windowCount : ℕ → ℕ
  histCounts : ℕ → ℕ → ℕ
  histTotalNonZero : ℕ → ℕ
  windowSamples : List (ℚ × (ℕ → ℚ))
  lastSample : ℚ
  lastTracked : ℚ

/-- The freshly allocated state (MapView.tsx 271-288). -/
def initAggState : AggState where
  seen := fun _ => false
  sumDensity := fun _ => 0
  sampleCount := fun _ => 0
  maxDensity := fun _ => 0
  nonZeroSum := fun _ => 0
  nonZeroCount := fun _ => 0
  windowSum := fun _ => 0
  windowCount := fun _ => 0
  histCounts := fun _ _ => 0
  histTotalNonZero := fun _ => 0
  windowSamples := []
  lastSample := 0
  lastTracked := 0

/-- The rewind reset (MapView.tsx 413-424): every statistic field is
cleared; `lastTrackedSimTimeRef` is *not* touched by the reset block. -/
def resetStats (s : AggState) : AggState where
  seen := fun _ => false
  sumDensity := fun _ => 0
  sampleCount := fun _ => 0
  maxDensity := fun _ => 0
  nonZeroSum := fun _ => 0
  nonZeroCount := fun _ => 0
  windowSum := fun _ => 0
  windowCount := fun _ => 0
  histCounts := fun _ _ => 0
  histTotalNonZero := fun _ => 0
  windowSamples := []
  lastSample := 0
  lastTracked := s.lastTracked

/-- The window eviction loop (MapView.tsx 473-483): pop queue entries from
the front while the front is strictly older than `WINDOW_SECONDS`,
subtracting each popped snapshot's positive entries from the window
sums/counts. -/
def evictLoop (t : ℚ) (q : List (ℚ × (ℕ → ℚ))) (wSum : ℕ → ℚ)
    (wCnt : ℕ → ℕ) (n : ℕ) : List (ℚ × (ℕ → ℚ)) × (ℕ → ℚ) × (ℕ → ℕ) :=
  match q with
  | [] => ([], wSum, wCnt)
  | e :: rest =>
    if WINDOW_SECONDS < t - e.1 then
      evictLoop t rest
        (fun i => if i < n ∧ 0 < e.2 i then wSum i - e.2 i else wSum i)
        (fun i => if i < n ∧ 0 < e.2 i then wCnt i - 1 else wCnt i) n
    else (e :: rest, wSum, wCnt)

/-- One frame of statistics accumulation while playing
(MapView.tsx 427-486).  Reads every statistic field but never
`lastTracked`, which it leaves unchanged (the step function sets it). -/
def accumFrame (cfg : AggConfig) (t : ℚ) (s : AggState) : AggState :=
  let n := segmentCount cfg
  let dens := frameDensity cfg t
  let seen' := fun i => if i < n ∧ 0 < dens i then true else s.seen i
  let sumD' := fun i =>
    if i < n ∧ seen' i = true then s.sumDensity i + dens i else s.sumDensity i
  let cnt' := fun i =>
    if i < n ∧ seen' i = true then s.sampleCount i + 1 else s.sampleCount i
  let maxD' := fun i =>
    if i < n ∧ seen' i = true ∧ s.maxDensity i < dens i then dens i
    else s.maxDensity i
  let shouldSample :=
    t = 0 ∨ SAMPLE_INTERVAL_SECONDS ≤ t - s.lastSample ∨ s.lastSample = 0
  if shouldSample then
    let snap := fun i => if i < n then dens i else 0
    let nzSum' := fun i =>
      if i < n ∧ 0 < dens i then s.nonZeroSum i + dens i else s.nonZeroSum i
    let nzCnt' := fun i =>
      if i < n ∧ 0 < dens i then s.nonZeroCount i + 1 else s.nonZeroCount i
    let wSum1 := fun i =>
      if i < n ∧ 0 < dens i then s.windowSum i + dens i else s.windowSum i
    let wCnt1 := fun i =>
      if i < n ∧ 0 < dens i then s.windowCount i + 1 else s.windowCount i
    let histT' := fun i =>
      if i < n ∧ 0 < dens i then s.histTotalNonZero i + 1
      else s.histTotalNonZero i
    let hist' := fun i b =>
      if i < n ∧ 0 < dens i ∧ b = histBinOf (dens i) then s.histCounts i b + 1
      else s.histCounts i b
    let ev := evictLoop t (s.windowSamples ++ [(t, snap)]) wSum1 wCnt1 n
    { seen := seen', sumDensity := sumD', sampleCount := cnt',
      maxDensity := maxD', nonZeroSum := nzSum', nonZeroCount := nzCnt',
      windowSum := ev.2.1, windowCount := ev.2.2,
      histCounts := hist', histTotalNonZero := histT',
      windowSamples := ev.1, lastSample := t, lastTracked := s.lastTracked }
  else
    { s with seen := seen', sumDensity := sumD', sampleCount := cnt',
             maxDensity := maxD' }

/-- One call of `draw`'s statistics section for a frame at simulated time
`t` (MapView.tsx 345, 412-487): nothing happens without a route and agents;
otherwise a rewind clears the state, accumulation runs while `playing`,
and `lastTrackedSimTimeRef` is set to `t`. -/
def aggStep (cfg : AggConfig) (playing : Bool) (t : ℚ) (s : AggState) :
    AggState :=
  if cfg.runners = [] ∨ cfg.total ≤ 0 then s
  else
    let s0 := if t < s.lastTracked then resetStats s else s
    let s1 := if playing ∧ 0 < segmentCount cfg then accumFrame cfg t s0 else s0
    { s1 with lastTracked := t }

/-- A sequence of frames, each a `(playing, simTime)` pair, processed in
order. -/
def runAgg (cfg : AggConfig) (frames : List (Bool × ℚ)) (s : AggState) :
    AggState :=
  frames.foldl (fun st f => aggStep cfg f.1 f.2 st) s

/-- A sequence of frames all processed with `playing = true`. -/
def runPlaying (cfg : AggConfig) (ts : List ℚ) (s : AggState) : AggState :=
  runAgg cfg (ts.map (fun t => (true, t))) s

/-! ### Reporting (MapView.tsx 489-568) -/

/-- The average-submode selector (MapView.tsx 23). -/
inductive AverageMode where
  | active_avg
  | p90
  | top30
  | window

/-- The statistic-mode selector (MapView.tsx 22). -/
inductive HeatMetric where
  | average
  | max

/-- `avgModeValue[i]` (MapView.tsx 489-537): the selected average-mode
statistic of segment `i`, 0 for segments never seen. -/
def avgModeValue (s : AggState) (mode : AverageMode) (i : ℕ) : ℚ :=
  if s.seen i = true then
    match mode with
    | .active_avg =>
      if 0 < s.nonZeroCount i then s.nonZeroSum i / (s.nonZeroCount i : ℚ)
      else 0
    | .window =>
      if 0 < s.windowCount i then s.windowSum i / (s.windowCount i : ℚ) else 0
    | .p90 =>
      if s.histTotalNonZero i = 0 then 0
      else percentileValue (s.histCounts i) (s.histTotalNonZero i) (9 / 10)
    | .top30 =>
      if s.histTotalNonZero i = 0 then 0
      else topFractionValue (s.histCounts i) (s.histTotalNonZero i)
  else 0

/-- The value segment `i` contributes to its group (MapView.tsx 559-562):
the average-mode statistic or the max-to-date, by heat metric. -/
def segmentValue (s : AggState) (heat : HeatMetric) (mode : AverageMode)
    (i : ℕ) : ℚ :=
  match heat with
  | .average => avgModeValue s mode i
  | .max => s.maxDensity i

/-- The reported group value (MapView.tsx 553-568): starting from 0, every
*seen* member segment raises the group value to its own segment value if
larger. -/
def groupValue (s : AggState) (heat : HeatMetric) (mode : AverageMode)
    (segToGroup : ℕ → ℕ) (n g : ℕ) : ℚ :=
  (List.range n).foldl
    (fun acc i =>
      if s.seen i = true ∧ segToGroup i = g then
        (if acc < segmentValue s heat mode i then segmentValue s heat mode i
         else acc)
      else acc)
    0

/-- Modelled from the claim's words (C1): a group's observation in a frame
is the maximum of its member segments' instantaneous densities in that
frame. -/
def claimGroupFrameObs (cfg : AggConfig) (segToGroup : ℕ → ℕ) (g : ℕ)
    (t : ℚ) : ℚ :=
  (List.range (segmentCount cfg)).foldl
    (fun acc i => if segToGroup i = g then max acc (frameDensity cfg t i)
                  else acc)
    0

/-- Modelled from the claim's words (C1): the group's active-average is
its non-zero per-frame observations' sum divided by their count. -/
def claimGroupActiveAvg (cfg : AggConfig) (segToGroup : ℕ → ℕ) (g : ℕ)
    (ts : List ℚ) : ℚ :=
  let obs := (ts.map (claimGroupFrameObs cfg segToGroup g)).filter
    (fun v => decide (0 < v))
  obs.sum / (obs.length : ℚ)

/-- Modelled from the claim's words (C4): the window average computed only
from retained samples whose timestamp is no older than `WINDOW_SECONDS`
relative to the current simulated time `t`. -/
def claimWindowAverage (s : AggState) (t : ℚ) (i : ℕ) : ℚ :=
  let vals := ((s.windowSamples.filter
      (fun e => decide (t - e.1 ≤ WINDOW_SECONDS))).map
      (fun e => e.2 i)).filter (fun v => decide (0 < v))
  if vals.length = 0 then 0 else vals.sum / (vals.length : ℚ)

/-! ### Spatial segment grouping (MapView.tsx 141-269)

`segmentSpatialGroups` receives the segment breakpoints (the planar
coordinates of the path positions at multiples of the segment length,
lines 130-164; segment `i` runs from breakpoint `i` to breakpoint `i+1`)
and unifies spatially-coincident segments with a grid-accelerated
union-find.  The JS `Map<string, number[]>` keyed by the string
`"${cx}:${cy}"` becomes an association list keyed by the pair `(cx, cy)`
(the string key is an injective encoding of that pair); `Set` iteration
order in JS is insertion order, mirrored by append-if-absent lists. -/

/-- Matching tolerance (MapView.tsx 192):
`max(1.5, min(5, segmentLength·0.5))`. -/
def toleranceM (L : ℚ) : ℚ := max (3 / 2) (min 5 (L * (1 / 2)))

/-- Minimum route separation (MapView.tsx 194):
`max(20, segmentLength·4)`. -/
def minRouteSeparationM (L : ℚ) : ℚ := max 20 (L * 4)

/-- Sampling step along a segment (MapView.tsx 196):
`max(0.75, min(2, segmentLength·0.5))`. -/
def sampleStepM (L : ℚ) : ℚ := max (3 / 4) (min 2 (L * (1 / 2)))

/-- The path-distance separation of segments `i` and `j`
(MapView.tsx 227): `|i - j| · segmentLength`. -/
def routeSeparationM (i j : ℕ) (L : ℚ) : ℚ :=
  (((i : ℤ) - (j : ℤ)).natAbs : ℚ) * L

/-- Helper for `ceil(sqrt(lenSq) / step)`: the least `n` with
`lenSq ≤ (n·step)²`, found by counting up with ample fuel.  This equals the
source's `Math.ceil(Math.hypot(dx, dy) / sampleStepM)` (MapView.tsx
202-203) for every positive `step`, since `n ≥ sqrt(lenSq)/step` iff
`(n·step)² ≥ lenSq` for `n ≥ 0`. -/
def ceilSqrtDivGo (lenSq step : ℚ) (fuel n : ℕ) : ℕ :=
  if fuel = 0 then n
  else if lenSq ≤ (n : ℚ) * step * ((n : ℚ) * step) then n
  else ceilSqrtDivGo lenSq step (fuel - 1) (n + 1)
termination_by fuel
decreasing_by
  have : fuel ≠ 0 := by assumption
  omega

/-- `ceil(sqrt(lenSq) / step)` (see `ceilSqrtDivGo`). -/
def ceilSqrtDiv (lenSq step : ℚ) : ℕ :=
  ceilSqrtDivGo lenSq step ((⌈lenSq⌉.toNat + 2) * (⌈1 / step⌉.toNat + 2)) 0

/-- Lookup of a grid cell's candidate list (`cells.get(key)`,
MapView.tsx 217); a missing key acts as the empty list (the source
`continue`s on a missing entry). -/
def cellsGet (cells : List ((ℤ × ℤ) × List ℕ)) (key : ℤ × ℤ) : List ℕ :=
  match cells with
  | [] => []
  | e :: rest => if e.1 = key then e.2 else cellsGet rest key

/-- `list.push(i)` / `cells.set(key, [i])` (MapView.tsx 243-250): append
`i` to the key's list, or append a fresh singleton entry. -/
def cellsAdd (cells : List ((ℤ × ℤ) × List ℕ)) (key : ℤ × ℤ) (i : ℕ) :
    List ((ℤ × ℤ) × List ℕ) :=
  match cells with
  | [] => [(key, [i])]
  | e :: rest =>
    if e.1 = key then (e.1, e.2 ++ [i]) :: rest else e :: cellsAdd rest key i

/-- Append-if-absent, mirroring insertion into a JS `Set` (first insertion
fixes the iteration position). -/
def setAdd {α : Type} [DecidableEq α] (l : List α) (x : α) : List α :=
  if x ∈ l then l else l ++ [x]

/-- The nine 3×3 neighborhood offsets in the source's loop order
(MapView.tsx 214-215: `ox` outer, `oy` inner, each `-1, 0, 1`). -/
def neighborOffsets : List (ℤ × ℤ) :=
  [(-1, -1), (-1, 0), (-1, 1), (0, -1), (0, 0), (0, 1), (1, -1), (1, 0),
   (1, 1)]

/-- The sample-point loop of segment `i` (MapView.tsx 207-224): walk the
`sampleCount + 1` sample points of the segment from `(ax, ay)` along
`(dx, dy)`, collecting the candidate set (in first-insertion order) from
the 3×3 cell neighborhood of each sample and the set of touched cell
keys. -/
def collectCandidates (cells : List ((ℤ × ℤ) × List ℕ)) (ax ay dx dy
    cellSize : ℚ) (sampleCount : ℕ) : List ℕ × List (ℤ × ℤ) :=
  (List.range (sampleCount + 1)).foldl
    (fun acc s =>
      let t : ℚ := (s : ℚ) / (sampleCount : ℚ)
      let x := ax + dx * t
      let y := ay + dy * t
      let cx := ⌊x / cellSize⌋
      let cy := ⌊y / cellSize⌋
      let cands := neighborOffsets.foldl
        (fun cl o => (cellsGet cells (cx + o.1, cy + o.2)).foldl setAdd cl)
        acc.1
      (cands, setAdd acc.2 (cx, cy)))
    ([], [])

/-- The candidate filter of the union step (MapView.tsx 226-241): a
candidate `j` is accepted when its path-distance separation from `i` is
*not* below `minRouteSeparationM` and the symmetric segment-to-segment
squared distance is within the squared tolerance.  `bp` is the breakpoint
list: segment `k` spans `bp[k]`-`bp[k+1]`. -/
def acceptedTargets (bp : List (ℚ × ℚ)) (L : ℚ) (i : ℕ) (cands : List ℕ) :
    List ℕ :=
  let a := bp.getD i (0, 0)
  let b := bp.getD (i + 1) (0, 0)
  (cands.filter
    (fun j => decide (¬ routeSeparationM i j L < minRouteSeparationM L))).filter
    (fun j =>
      let c := bp.getD j (0, 0)
      let d := bp.getD (j + 1) (0, 0)
      decide (segmentToSegmentDistSq a.1 a.2 b.1 b.2 c.1 c.2 d.1 d.2 ≤
        toleranceM L * toleranceM L))

/-- Union-find `find` with path halving (MapView.tsx 170-177).  The source's
`while` loop is driven here by fuel (the parent forest is acyclic and has
depth at most its size, so `parent.length` fuel is never exhausted in a
reachable state). -/
def ufFind (fuel : ℕ) (parent : List ℕ) (x : ℕ) : ℕ × List ℕ :=
  if fuel = 0 then (x, parent)
  else
    let p := parent.getD x x
    if p = x then (x, parent)
    else
      let g := parent.getD p p
      ufFind (fuel - 1) (parent.set x g) g
termination_by fuel
decreasing_by
  have : fuel ≠ 0 := by assumption
  omega

/-- Union by rank (MapView.tsx 178-190). -/
def ufUnion (parent rank : List ℕ) (a b : ℕ) : List ℕ × List ℕ :=
  let fa := ufFind parent.length parent a
  let fb := ufFind fa.2.length fa.2 b
  let ra := fa.1
  let rb := fb.1
  let par := fb.2
  if ra = rb then (par, rank)
  else if rank.getD ra 0 < rank.getD rb 0 then (par.set ra rb, rank)
  else if rank.getD rb 0 < rank.getD ra 0 then (par.set rb ra, rank)
  else (par.set rb ra, rank.set ra (rank.getD ra 0 + 1))

/-- The in-progress grouping state: the union-find arrays and the spatial
grid. -/
structure GroupBuildState where
  parent : List ℕ
  rank : List ℕ
  cells : List ((ℤ × ℤ) × List ℕ)

/-- Processing of one segment `i` (MapView.tsx 199-251): sample the
segment to collect grid candidates, union with every accepted candidate,
then register the segment's touched cells. -/
def groupStep (bp : List (ℚ × ℚ)) (L : ℚ) (st : GroupBuildState) (i : ℕ) :
    GroupBuildState :=
  let a := bp.getD i (0, 0)
  let b := bp.getD (i + 1) (0, 0)
  let dx := b.1 - a.1
  let dy := b.2 - a.2
  let sampleCount := max 1 (ceilSqrtDiv (dx * dx + dy * dy) (sampleStepM L))
  let col := collectCandidates st.cells a.1 a.2 dx dy (toleranceM L)
    sampleCount
  let accepted := acceptedTargets bp L i col.1
  let pr := accepted.foldl (fun pr j => ufUnion pr.1 pr.2 i j)
    (st.parent, st.rank)
  { parent := pr.1, rank := pr.2,
    cells := col.2.foldl (fun c k => cellsAdd c k i) st.cells }

/-- Root-to-group-id lookup used when densifying group ids
(MapView.tsx 254-266). -/
def rootLookup (m : List (ℕ × ℕ)) (root : ℕ) : Option ℕ :=
  match m with
  | [] => none
  | e :: rest => if e.1 = root then some e.2 else rootLookup rest root

/-- Embedding of `segmentSpatialGroups` (MapView.tsx 141-269) from the
planar breakpoints: returns the dense `segment → group id` list and the
group count.  `n` is the segment count (`bp` has `n + 1` entries). -/
def segmentSpatialGroups (bp : List (ℚ × ℚ)) (L : ℚ) (n : ℕ) :
    List ℕ × ℕ :=
  let st := (List.range n).foldl (groupStep bp L)
    { parent := List.range n, rank := List.replicate n 0, cells := [] }
  let ext := (List.range n).foldl
    (fun (acc : List ℕ × List (ℕ × ℕ) × ℕ × List ℕ) i =>
      let f := ufFind acc.2.2.2.length acc.2.2.2 i
      match rootLookup acc.2.1 f.1 with
      | some g => (acc.1 ++ [g], acc.2.1, acc.2.2.1, f.2)
      | none =>
        (acc.1 ++ [acc.2.2.1], acc.2.1 ++ [(f.1, acc.2.2.1)],
         acc.2.2.1 + 1, f.2))
    ([], [], 0, st.parent)
  (ext.1, ext.2.2.1)

/-- A concrete out-and-back breakpoint configuration used as a test
vector: seven planar breakpoints forming six 10 m (and one 3 m) segments,
where the return leg runs 3 m from the outbound leg.  Segment 5 lies
within matching tolerance of both segment 0 and segment 1. -/
def bp7out : List (ℚ × ℚ) :=
  [(0, 0), (10, 0), (20, 0), (30, 0), (30, 3), (20, 3), (10, 3)]

/-! ### Route positions (src/sim/route.ts 66-101) -/

/-- The binary search of `positionAtDistance` (route.ts 77-86): narrow
`[lo, hi]` to the leftmost index whose cumulative distance is ≥
`clamped`. -/
def bsearchLo (cum : List ℚ) (clamped : ℚ) (lo hi : ℕ) : ℕ :=
  if lo < hi then
    let mid := (lo + hi) / 2
    if cum.getD mid 0 < clamped then bsearchLo cum clamped (mid + 1) hi
    else bsearchLo cum clamped lo mid
  else lo
termination_by hi - lo
decreasing_by
  all_goals omega

/-- Embedding of `positionAtDistance` (route.ts 66-101); points are
`(lat, lng)` pairs. -/
def positionAtDistance (points : List (ℚ × ℚ)) (cumdist : List ℚ)
    (dMeters : ℚ) : ℚ × ℚ :=
  let n := points.length
  if n = 0 then (0, 0)
  else if n = 1 then points.getD 0 (0, 0)
  else
    let total := cumdist.getD (n - 1) 0
    let clamped := max 0 (min dMeters total)
    let lo := bsearchLo cumdist clamped 0 (n - 1)
    let i := max 1 lo
    let d0 := cumdist.getD (i - 1) 0
    let d1 := cumdist.getD i 0
    let span := d1 - d0
    if span ≤ 0 then points.getD i (0, 0)
    else
      let t := (clamped - d0) / span
      let a := points.getD (i - 1) (0, 0)
      let b := points.getD i (0, 0)
      (a.1 + (b.1 - a.1) * t, a.2 + (b.2 - a.2) * t)

/-! ## Theorems -/

theorem pairDistSq_symm (ps : List (ℚ × ℚ)) (i j : ℕ) :
    pairDistSq ps i j = pairDistSq ps j i := by
  unfold pairDistSq
  ring

/-- Claim C6 (amended part): the segment-to-segment squared distance of the
grouping pass is the plain minimum of the four endpoint-to-segment squared
distances, with no orientation averaging, and it is symmetric in its two
segment arguments. -/
theorem segmentToSegmentDistSq_symm (a0x a0y a1x a1y b0x b0y b1x b1y : ℚ) :
    segmentToSegmentDistSq a0x a0y a1x a1y b0x b0y b1x b1y =
      segmentToSegmentDistSq b0x b0y b1x b1y a0x a0y a1x a1y := by
  unfold segmentToSegmentDistSq
  apply le_antisymm <;>
    simp only [le_min_iff, min_le_iff] <;>
    refine ⟨⟨⟨?_, ?_⟩, ?_⟩, ?_⟩ <;> simp

/-- Claim C6 (counterexample): on the concrete segments
`(0,0)-(10,0)` and `(3,1)-(3,5)` the source's distance is 1 while the
claim's orientation-averaged formula gives 11/2, so the source distance is
not the orientation-averaged quantity the claim describes. -/
theorem claimOrientationDist_ne_sourceDist :
    claimOrientationDistSq 0 0 10 0 3 1 3 5 ≠
      segmentToSegmentDistSq 0 0 10 0 3 1 3 5 := by
  norm_num [claimOrientationDistSq, segmentToSegmentDistSq,
    pointToSegmentDistSq]

/-- Claim C5 (counterexample): with segment length 0 the `segmentCount`
computation divides by zero — no epsilon is substituted for the zero
denominator. -/
theorem segmentCount_divides_by_zero : segmentCountChecked 1000 0 = none := by
  norm_num [segmentCountChecked, jsDiv]

/-- Claim C5 (amended): only the density-radius division is guarded by the
`max(1e-6, ·)` epsilon substitution, and it never divides by zero for any
radius (including 0); the divisions by the segment length (segment count,
segment index, frame density) have no epsilon guard and avoid a zero
denominator only when the segment length is nonzero. -/
theorem divisionGuards (r total d : ℚ) (c n : ℕ) (L : ℚ) (hL : L ≠ 0) :
    (invDensityRadiusChecked r).isSome = true ∧
      (segmentCountChecked total L).isSome = true ∧
      (segIndexChecked d L n).isSome = true ∧
      (frameDensityChecked c L).isSome = true := by
  have hmax : ¬ max (1 / 1000000 : ℚ) r = 0 := by
    have : (0 : ℚ) < max (1 / 1000000) r :=
      lt_max_of_lt_left (by norm_num)
    exact ne_of_gt this
  refine ⟨?_, ?_, ?_, ?_⟩
  · unfold invDensityRadiusChecked jsDiv
    rw [if_neg hmax]
    rfl
  · unfold segmentCountChecked jsDiv
    rw [if_neg hL]
    rfl
  · unfold segIndexChecked jsDiv
    rw [if_neg hL]
    rfl
  · unfold frameDensityChecked jsDiv
    rw [if_neg hL]
    rfl

/-- Closed witness for `divisionGuards`. -/
theorem divisionGuards_witness :
    (100 : ℚ) ≠ 0 ∧ (invDensityRadiusChecked 0).isSome = true ∧
      (segmentCountChecked 1000 100).isSome = true ∧
      (segIndexChecked 50 100 10).isSome = true ∧
      (frameDensityChecked 3 100).isSome = true := by
  have h := divisionGuards 0 1000 50 3 10 100 (by norm_num)
  exact ⟨by norm_num, h.1, h.2.1, h.2.2.1, h.2.2.2⟩

/-! ### C8: percentile monotonicity -/

theorem histScanLoop_ge (hist : ℕ → ℕ) (target : ℕ) :
    ∀ (rem cum idx : ℕ), idx ≤ histScanLoop hist target cum idx rem := by
  intro rem
  induction rem using Nat.strong_induction_on with
  | _ rem ih =>
    intro cum idx
    rw [histScanLoop]
    split
    · exact le_rfl
    · split
      · exact le_rfl
      · have h := ih (rem - 1) (by omega) (cum + hist idx) (idx + 1)
        omega

theorem histScanLoop_mono (hist : ℕ → ℕ) {t1 t2 : ℕ} (h : t1 ≤ t2) :
    ∀ (rem cum idx : ℕ),
      histScanLoop hist t1 cum idx rem ≤ histScanLoop hist t2 cum idx rem := by
  intro rem
  induction rem using Nat.strong_induction_on with
  | _ rem ih =>
    intro cum idx
    conv_lhs => rw [histScanLoop]
    conv_rhs => rw [histScanLoop]
    by_cases hr : rem = 0
    · simp [hr]
    · rw [if_neg hr, if_neg hr]
      by_cases h2 : t2 ≤ cum + hist idx
      · have h1 : t1 ≤ cum + hist idx := le_trans h h2
        rw [if_pos h1, if_pos h2]
      · rw [if_neg h2]
        by_cases h1 : t1 ≤ cum + hist idx
        · rw [if_pos h1]
          have hge := histScanLoop_ge hist t2 (rem - 1) (cum + hist idx)
            (idx + 1)
          omega
        · rw [if_neg h1]
          exact ih (rem - 1) (by omega) (cum + hist idx) (idx + 1)

/-- Claim C8: for a fixed histogram and ranks `p1 < p2` in `(0, 1]`, the
percentile value computed by the source's low-to-high bin scan at rank `p1`
is at most the value at rank `p2`. -/
theorem percentileValue_monotone (hist : ℕ → ℕ) (total : ℕ) (p1 p2 : ℚ)
    (hp0 : 0 < p1) (hp : p1 < p2) (hp1 : p2 ≤ 1) :
    percentileValue hist total p1 ≤ percentileValue hist total p2 := by
  unfold percentileValue
  have htarget : ⌈(total : ℚ) * p1⌉.toNat ≤ ⌈(total : ℚ) * p2⌉.toNat := by
    have : (total : ℚ) * p1 ≤ (total : ℚ) * p2 :=
      mul_le_mul_of_nonneg_left hp.le (Nat.cast_nonneg _)
    exact Int.toNat_le_toNat (Int.ceil_le_ceil this)
  have hb := histScanLoop_mono hist htarget HIST_BIN_COUNT 0 0
  refine min_le_min le_rfl ?_
  have hw : (0 : ℚ) ≤ HIST_BIN_WIDTH := by norm_num [HIST_BIN_WIDTH]
  refine mul_le_mul_of_nonneg_right ?_ hw
  have : ((histScanLoop hist ⌈(total : ℚ) * p1⌉.toNat 0 0 HIST_BIN_COUNT : ℕ) : ℚ) ≤
      ((histScanLoop hist ⌈(total : ℚ) * p2⌉.toNat 0 0 HIST_BIN_COUNT : ℕ) : ℚ) :=
    Nat.cast_le.mpr hb
  linarith

/-- Closed witness for `percentileValue_monotone` at a concrete histogram
(all ten samples in bin 4) and ranks 1/2 < 9/10. -/
theorem percentileValue_monotone_witness :
    (0 : ℚ) < 1 / 2 ∧ (1 / 2 : ℚ) < 9 / 10 ∧ (9 / 10 : ℚ) ≤ 1 ∧
      percentileValue (fun n => if n = 4 then 10 else 0) 10 (1 / 2) ≤
        percentileValue (fun n => if n = 4 then 10 else 0) 10 (9 / 10) :=
  ⟨by norm_num, by norm_num, by norm_num,
    percentileValue_monotone _ 10 _ _ (by norm_num) (by norm_num)
      (by norm_num)⟩

/-! ### C9: the proximity density loop -/

theorem densityInner_spec (ps : List (ℚ × ℚ)) (rsq : ℚ) (i : ℕ) :
    ∀ (m s : ℕ) (dens : ℕ → ℚ) (k : ℕ), i < s →
      densityInner ps rsq i dens (List.range' s m) k =
        dens k +
          (if k = i then
            ((List.range' s m).countP
              (fun j => decide (pairDistSq ps i j ≤ rsq)) : ℚ)
          else if s ≤ k ∧ k < s + m ∧ pairDistSq ps i k ≤ rsq then 1
          else 0) := by
  intro m
  induction m with
  | zero =>
    intro s dens k _
    have h2 : ¬ (s ≤ k ∧ k < s + 0 ∧ pairDistSq ps i k ≤ rsq) := by
      rintro ⟨h, h', _⟩
      omega
    by_cases hki : k = i
    · simp [densityInner, List.range'_zero, hki]
    · simp only [densityInner, List.range'_zero, List.countP_nil,
        Nat.cast_zero, if_neg hki]
      rw [if_neg h2]
      ring
  | succ m ih =>
    intro s dens k hs
    rw [List.range'_succ]
    simp only [densityInner]
    by_cases hcl : pairDistSq ps i s ≤ rsq
    · rw [if_pos hcl]
      rw [ih (s + 1) _ k (by omega)]
      by_cases hki : k = i
      · subst hki
        have hks : k ≠ s := by omega
        simp only [if_pos rfl, List.countP_cons, hcl, decide_True, if_true]
        push_cast
        ring
      · by_cases hks : k = s
        · subst hks
          have hc1 : ¬ (k + 1 ≤ k ∧ k < k + 1 + m ∧ pairDistSq ps i k ≤ rsq) := by
            rintro ⟨h, _, _⟩
            omega
          have hc2 : k ≤ k ∧ k < k + (m + 1) ∧ pairDistSq ps i k ≤ rsq :=
            ⟨le_rfl, by omega, hcl⟩
          simp only [if_neg hki, if_pos rfl, if_neg hc1, if_pos hc2]
          simp
        · have hc : (s + 1 ≤ k ∧ k < s + 1 + m ∧ pairDistSq ps i k ≤ rsq) ↔
              (s ≤ k ∧ k < s + (m + 1) ∧ pairDistSq ps i k ≤ rsq) := by
            constructor
            · rintro ⟨h1, h2, h3⟩
              exact ⟨by omega, by omega, h3⟩
            · rintro ⟨h1, h2, h3⟩
              exact ⟨by omega, by omega, h3⟩
          simp only [if_neg hki, if_neg hks]
          rw [if_congr hc rfl rfl]
    · rw [if_neg hcl]
      rw [ih (s + 1) _ k (by omega)]
      by_cases hki : k = i
      · subst hki
        simp only [if_pos rfl, List.countP_cons, hcl, decide_False, if_false]
        norm_num
      · by_cases hks : k = s
        · subst hks
          have hc1 : ¬ (k + 1 ≤ k ∧ k < k + 1 + m ∧ pairDistSq ps i k ≤ rsq) := by
            rintro ⟨h, _, _⟩
            omega
          have hc2 : ¬ (k ≤ k ∧ k < k + (m + 1) ∧ pairDistSq ps i k ≤ rsq) := by
            rintro ⟨_, _, h⟩
            exact hcl h
          simp only [if_neg hki, if_neg hc1, if_neg hc2]
        · have hc : (s + 1 ≤ k ∧ k < s + 1 + m ∧ pairDistSq ps i k ≤ rsq) ↔
              (s ≤ k ∧ k < s + (m + 1) ∧ pairDistSq ps i k ≤ rsq) := by
            constructor
            · rintro ⟨h1, h2, h3⟩
              exact ⟨by omega, by omega, h3⟩
            · rintro ⟨h1, h2, h3⟩
              exact ⟨by omega, by omega, h3⟩
          simp only [if_neg hki, if_neg hks]
          rw [if_congr hc rfl rfl]

theorem countP_close_split (ps : List (ℚ × ℚ)) (rsq : ℚ) (m n : ℕ)
    (hmn : m < n) :
    (List.range n).countP
        (fun j => decide (j ≠ m ∧ pairDistSq ps m j ≤ rsq)) =
      (List.range m).countP (fun a => decide (pairDistSq ps a m ≤ rsq)) +
        (List.range' (m + 1) (n - (m + 1))).countP
          (fun j => decide (pairDistSq ps m j ≤ rsq)) := by
  have h1 : List.range' m (n - m) =
      m :: List.range' (m + 1) (n - (m + 1)) := by
    have e : n - m = (n - (m + 1)) + 1 := by omega
    rw [e, List.range'_succ]
  have hsplit : List.range n =
      List.range m ++ (m :: List.range' (m + 1) (n - (m + 1))) := by
    rw [← h1, List.range_eq_range' m, List.range_eq_range' n]
    have h2 := List.range'_append_1 0 m (n - m)
    simp only [Nat.zero_add] at h2
    rw [h2]
    congr 1
    omega
  rw [hsplit, List.countP_append, List.countP_cons]
  have hm : ¬ (m ≠ m ∧ pairDistSq ps m m ≤ rsq) := by
    rintro ⟨h, _⟩
    exact h rfl
  simp only [hm, decide_False]
  have e1 : (List.range m).countP
        (fun j => decide (j ≠ m ∧ pairDistSq ps m j ≤ rsq)) =
      (List.range m).countP (fun a => decide (pairDistSq ps a m ≤ rsq)) := by
    apply List.countP_congr
    intro a ha
    have ham : a < m := List.mem_range.mp ha
    have hane : a ≠ m := by omega
    simp [hane, pairDistSq_symm ps m a]
  have e2 : (List.range' (m + 1) (n - (m + 1))).countP
        (fun j => decide (j ≠ m ∧ pairDistSq ps m j ≤ rsq)) =
      (List.range' (m + 1) (n - (m + 1))).countP
        (fun j => decide (pairDistSq ps m j ≤ rsq)) := by
    apply List.countP_congr
    intro a ha
    have := List.mem_range'_1.mp ha
    have hane : a ≠ m := by omega
    simp [hane]
  rw [e1, e2]
  simp

theorem densityOuter_inv (ps : List (ℚ × ℚ)) (rsq inv : ℚ) :
    ∀ (m : ℕ), m ≤ ps.length → ∀ k,
      ((List.range m).foldl (densityOuterStep ps rsq inv) (fun _ => 1)) k =
        if k < m then
          (1 + ((List.range ps.length).countP
            (fun j => decide (j ≠ k ∧ pairDistSq ps k j ≤ rsq)) : ℚ)) * inv
        else if k < ps.length then
          1 + ((List.range m).countP
            (fun a => decide (pairDistSq ps a k ≤ rsq)) : ℚ)
        else 1 := by
  intro m
  induction m with
  | zero =>
    intro _ k
    simp [List.range_zero]
  | succ m ih =>
    intro hm k
    rw [(List.range_succ m : List.range (m + 1) = List.range m ++ [m]),
      List.foldl_append, List.foldl_cons, List.foldl_nil]
    have hmn : m < ps.length := by omega
    simp only [densityOuterStep]
    rw [densityInner_spec ps rsq m (ps.length - (m + 1)) (m + 1) _ m
      (by omega)]
    rw [densityInner_spec ps rsq m (ps.length - (m + 1)) (m + 1) _ k
      (by omega)]
    rw [ih (by omega) m, ih (by omega) k]
    by_cases hkm : k = m
    · subst hkm
      rw [if_pos rfl]
      rw [if_neg (lt_irrefl k), if_pos hmn, if_pos (Nat.lt_succ_self k)]
      rw [if_pos rfl]
      rw [countP_close_split ps rsq k ps.length hmn]
      push_cast
      ring
    · rw [if_neg hkm]
      by_cases hklt : k < m
      · rw [if_pos hklt, if_pos (by omega : k < m + 1)]
        have hc : ¬ (m + 1 ≤ k ∧ k < m + 1 + (ps.length - (m + 1)) ∧
            pairDistSq ps m k ≤ rsq) := by
          rintro ⟨h, _, _⟩
          omega
        rw [if_neg hkm, if_neg hc, add_zero]
      · rw [if_neg hklt]
        by_cases hkn : k < ps.length
        · rw [if_pos hkn, if_neg (by omega : ¬ k < m + 1), if_pos hkn]
          have hiff : (m + 1 ≤ k ∧ k < m + 1 + (ps.length - (m + 1)) ∧
              pairDistSq ps m k ≤ rsq) ↔ pairDistSq ps m k ≤ rsq := by
            constructor
            · rintro ⟨_, _, h⟩
              exact h
            · intro h
              exact ⟨by omega, by omega, h⟩
          rw [if_neg hkm, if_congr hiff rfl rfl]
          rw [List.countP_append, List.countP_cons, List.countP_nil]
          by_cases hclose : pairDistSq ps m k ≤ rsq
          · simp only [hclose, decide_True]
            push_cast
            ring
          · simp only [hclose, decide_False]
            push_cast
            norm_num
        · rw [if_neg hkn, if_neg (by omega : ¬ k < m + 1), if_neg hkn]
          have hc : ¬ (m + 1 ≤ k ∧ k < m + 1 + (ps.length - (m + 1)) ∧
              pairDistSq ps m k ≤ rsq) := by
            rintro ⟨_, h, _⟩
            omega
          rw [if_neg hkm, if_neg hc, add_zero]

/-- Claim C9 (amended): the density loop gives agent `k` the value
`(1 + number of other agents within the squared radius) · 1/max(1e-6, r)`:
self-count 1, both members of every unordered pair within `radius²`
incremented, and the final value divided by `max(1e-6, radius)` (not by
the bare radius). -/
theorem runnerDensities_closedForm (ps : List (ℚ × ℚ)) (radius : ℚ)
    (k : ℕ) (hk : k < ps.length) :
    runnerDensities ps radius k =
      (1 + ((List.range ps.length).countP
        (fun j => decide (j ≠ k ∧ pairDistSq ps k j ≤ radius * radius)) :
        ℚ)) * (1 / max (1 / 1000000) radius) := by
  unfold runnerDensities
  rw [densityOuter_inv ps (radius * radius) (1 / max (1 / 1000000) radius)
    ps.length le_rfl k, if_pos hk]

/-- Closed witness for `runnerDensities_closedForm`: the claim's concrete
scenario — two agents 4 m apart with radius 5 m — yields density
`2 · (1/5) = 0.4` for agent 0. -/
theorem runnerDensities_closedForm_witness :
    0 < ([((0 : ℚ), (0 : ℚ)), (4, 0)] : List (ℚ × ℚ)).length ∧
      runnerDensities [((0 : ℚ), (0 : ℚ)), (4, 0)] 5 0 = 2 / 5 := by
  constructor
  · norm_num
  · rw [runnerDensities_closedForm [((0 : ℚ), (0 : ℚ)), (4, 0)] 5 0
      (by norm_num)]
    norm_num [List.countP_cons, pairDistSq, List.range_succ]

/-- Claim C9 (counterexample): with radius `1e-7` (below the 1e-6 guard)
and two coincident agents, the source computes `2 · 10^6` (division by
`max(1e-6, r)`), not the `2 · 10^7` that division by the radius itself
would give — so the final value is not "divided by the radius" in
general. -/
theorem runnerDensities_not_dividedByRadius :
    runnerDensities [((0 : ℚ), (0 : ℚ)), (0, 0)] (1 / 10000000) 0 ≠
      claimRunnerDensity [((0 : ℚ), (0 : ℚ)), (0, 0)] (1 / 10000000) 0 := by
  have h1 : runnerDensities [((0 : ℚ), (0 : ℚ)), (0, 0)] (1 / 10000000) 0 =
      2000000 := by
    norm_num [runnerDensities, densityOuterStep, densityInner, pairDistSq,
      List.range_succ, List.range_zero, List.range'_succ, List.range'_zero]
  have h2 : claimRunnerDensity [((0 : ℚ), (0 : ℚ)), (0, 0)] (1 / 10000000) 0 =
      20000000 := by
    norm_num [claimRunnerDensity, pairDistSq, List.range_succ,
      List.range_zero, List.countP_cons, List.countP_nil]
  rw [h1, h2]
  norm_num

/-! ### C10: positionAtDistance and distance clamping -/

theorem clampIdem (d T : ℚ) :
    max 0 (min (max 0 (min d T)) T) = max 0 (min d T) := by
  rcases le_or_lt 0 T with h | h
  · have hc1 : max 0 (min d T) ≤ T := max_le h (min_le_right d T)
    rw [min_eq_left hc1, max_eq_right (le_max_left 0 (min d T))]
  · have hc : min d T ≤ 0 := le_of_lt (lt_of_le_of_lt (min_le_right d T) h)
    rw [max_eq_left hc, min_eq_right h.le, max_eq_left h.le]

theorem bsearchLo_spec (cum : List ℚ) (x : ℚ) :
    ∀ (fuel lo hi : ℕ), hi - lo = fuel → lo ≤ hi →
      (∀ j k, lo ≤ j → j ≤ k → k ≤ hi → cum.getD j 0 ≤ cum.getD k 0) →
      x ≤ cum.getD hi 0 →
      (∀ j, lo ≤ j → j < bsearchLo cum x lo hi → cum.getD j 0 < x) ∧
        lo ≤ bsearchLo cum x lo hi ∧ bsearchLo cum x lo hi ≤ hi ∧
        x ≤ cum.getD (bsearchLo cum x lo hi) 0 := by
  intro fuel
  induction fuel using Nat.strong_induction_on with
  | _ fuel ih =>
    intro lo hi hfuel hle hmono hx
    rw [bsearchLo]
    by_cases hlh : lo < hi
    · rw [if_pos hlh]
      have hmlo : lo ≤ (lo + hi) / 2 := by omega
      have hmhi : (lo + hi) / 2 < hi := by omega
      by_cases hcmp : cum.getD ((lo + hi) / 2) 0 < x
      · rw [if_pos hcmp]
        have hrec := ih (hi - ((lo + hi) / 2 + 1)) (by omega)
          ((lo + hi) / 2 + 1) hi rfl (by omega)
          (fun j k hj hjk hk => hmono j k (by omega) hjk hk) hx
        obtain ⟨p1, p2, p3, p4⟩ := hrec
        refine ⟨?_, by omega, p3, p4⟩
        intro j hj hjr
        by_cases hjm : j ≤ (lo + hi) / 2
        · exact lt_of_le_of_lt
            (hmono j ((lo + hi) / 2) hj hjm (by omega)) hcmp
        · exact p1 j (by omega) hjr
      · rw [if_neg hcmp]
        have hrec := ih ((lo + hi) / 2 - lo) (by omega) lo ((lo + hi) / 2)
          rfl (by omega)
          (fun j k hj hjk hk => hmono j k hj hjk (by omega))
          (le_of_not_lt hcmp)
        obtain ⟨p1, p2, p3, p4⟩ := hrec
        exact ⟨p1, p2, by omega, p4⟩
    · rw [if_neg hlh]
      have : lo = hi := by omega
      subst this
      exact ⟨fun j hj hjr => absurd (lt_of_le_of_lt hj hjr) (lt_irrefl lo),
        le_rfl, le_rfl, hx⟩

theorem getD_mono_of_step (cum : List ℚ)
    (hmono : ∀ k, k + 1 < cum.length →
      cum.getD k 0 < cum.getD (k + 1) 0) :
    ∀ j k, j ≤ k → k < cum.length → cum.getD j 0 ≤ cum.getD k 0 := by
  have haux : ∀ m j, j + m < cum.length →
      cum.getD j 0 ≤ cum.getD (j + m) 0 := by
    intro m
    induction m with
    | zero => intro j _; simp
    | succ m ihm =>
      intro j hj
      have h1 := ihm j (by omega)
      have h2 := hmono (j + m) (by omega)
      have e : j + (m + 1) = (j + m) + 1 := by omega
      rw [e]
      exact le_trans h1 h2.le
  intro j k hjk hk
  have e : j + (k - j) = k := by omega
  have := haux (k - j) j (by omega)
  rwa [e] at this

theorem getD_strictMono_of_step (cum : List ℚ)
    (hmono : ∀ k, k + 1 < cum.length →
      cum.getD k 0 < cum.getD (k + 1) 0) :
    ∀ j k, j < k → k < cum.length → cum.getD j 0 < cum.getD k 0 := by
  intro j k hjk hk
  have h1 : cum.getD j 0 ≤ cum.getD (k - 1) 0 :=
    getD_mono_of_step cum hmono j (k - 1) (by omega) (by omega)
  have h2 := hmono (k - 1) (by omega)
  have e : (k - 1) + 1 = k := by omega
  rw [e] at h2
  exact lt_of_le_of_lt h1 h2

/-- With *strictly* increasing cumulative distances whose first entry is 0,
the boundary queries behave as expected: `d ≤ 0` returns the first path
point and `d ≥ total` the last path point.  (A development lemma isolating
what plateaued cumulative distances break; the clamp clause itself holds
unconditionally, see `positionAtDistance_clamped`.) -/
theorem positionAtDistance_boundary_of_strictMono (points : List (ℚ × ℚ))
    (cumdist : List ℚ) (d : ℚ) (hlen : cumdist.length = points.length)
    (h2 : 2 ≤ points.length) (h0 : cumdist.getD 0 0 = 0)
    (hmono : ∀ k, k + 1 < cumdist.length →
      cumdist.getD k 0 < cumdist.getD (k + 1) 0) :
    (d ≤ 0 → positionAtDistance points cumdist d = points.getD 0 (0, 0)) ∧
      (cumdist.getD (points.length - 1) 0 ≤ d →
        positionAtDistance points cumdist d =
          points.getD (points.length - 1) (0, 0)) := by
  have hn0 : ¬ points.length = 0 := by omega
  have hn1 : ¬ points.length = 1 := by omega
  have hT0 : 0 ≤ cumdist.getD (points.length - 1) 0 := by
    have h := getD_mono_of_step cumdist hmono 0 (points.length - 1)
      (by omega) (by omega)
    rw [h0] at h
    exact h
  refine ⟨?_, ?_⟩
  · intro hd
    have hclamp : max 0 (min d (cumdist.getD (points.length - 1) 0)) = 0 :=
      max_eq_left (le_trans (min_le_left d _) hd)
    have hspec := bsearchLo_spec cumdist 0 ((points.length - 1) - 0) 0
      (points.length - 1) rfl (by omega)
      (fun j k _ hjk hk =>
        getD_mono_of_step cumdist hmono j k hjk (by omega)) hT0
    obtain ⟨p1, _, p3, _⟩ := hspec
    have hr0 : bsearchLo cumdist 0 0 (points.length - 1) = 0 := by
      by_contra hne
      have h1 := p1 0 le_rfl (by omega)
      rw [h0] at h1
      exact lt_irrefl 0 h1
    have hd1 : 0 < cumdist.getD 1 0 := by
      have h := hmono 0 (by omega)
      rw [h0] at h
      simpa using h
    simp only [positionAtDistance, if_neg hn0, if_neg hn1]
    rw [hclamp, hr0]
    have hmax : max 1 0 = 1 := by norm_num
    rw [hmax]
    simp only [Nat.sub_self, h0, sub_zero]
    rw [if_neg (not_le.mpr hd1)]
    simp
  · intro hd
    have hclamp : max 0 (min d (cumdist.getD (points.length - 1) 0)) =
        cumdist.getD (points.length - 1) 0 := by
      rw [min_eq_right hd, max_eq_right hT0]
    have hspec := bsearchLo_spec cumdist
      (cumdist.getD (points.length - 1) 0) ((points.length - 1) - 0) 0
      (points.length - 1) rfl (by omega)
      (fun j k _ hjk hk =>
        getD_mono_of_step cumdist hmono j k hjk (by omega)) le_rfl
    obtain ⟨p1, _, p3, p4⟩ := hspec
    have hrlast : bsearchLo cumdist (cumdist.getD (points.length - 1) 0) 0
        (points.length - 1) = points.length - 1 := by
      by_contra hne
      have hlt : bsearchLo cumdist (cumdist.getD (points.length - 1) 0) 0
          (points.length - 1) < points.length - 1 := lt_of_le_of_ne p3 hne
      have hstr := getD_strictMono_of_step cumdist hmono _
        (points.length - 1) hlt (by omega)
      exact absurd p4 (not_le.mpr hstr)
    have hprev : cumdist.getD (points.length - 1 - 1) 0 <
        cumdist.getD (points.length - 1) 0 :=
      getD_strictMono_of_step cumdist hmono _ _ (by omega) (by omega)
    simp only [positionAtDistance, if_neg hn0, if_neg hn1]
    rw [hclamp, hrlast]
    have hmax : max 1 (points.length - 1) = points.length - 1 := by omega
    rw [hmax]
    rw [if_neg (not_le.mpr (sub_pos.mpr hprev))]
    rw [div_self (ne_of_gt (sub_pos.mpr hprev))]
    have hb : ∀ a b : ℚ × ℚ,
        ((a.1 + (b.1 - a.1) * 1, a.2 + (b.2 - a.2) * 1) : ℚ × ℚ) = b := by
      intro a b
      ext <;> simp
    rw [hb]

/-- Claim C10 (amended): for every point list, cumulative-distance list
and query distance, `positionAtDistance` returns the same position for `d`
as for `d` clamped to `[0, cumdist[n-1]]` — the source clamps internally
(route.ts 75), so out-of-range query distances never index outside the
polyline. -/
theorem positionAtDistance_clamped (points : List (ℚ × ℚ))
    (cumdist : List ℚ) (d : ℚ) :
    positionAtDistance points cumdist d =
      positionAtDistance points cumdist
        (max 0 (min d (cumdist.getD (points.length - 1) 0))) := by
  by_cases hn0 : points.length = 0
  · simp only [positionAtDistance, if_pos hn0]
  · by_cases hn1 : points.length = 1
    · simp only [positionAtDistance, if_neg hn0, if_pos hn1]
    · simp only [positionAtDistance, if_neg hn0, if_neg hn1, clampIdem]

/-- Claim C10 (counterexample): with the monotone (non-strictly
increasing) cumulative distances `[0, 5, 5]` — a zero-length trailing
span, as produced by a repeated final track point — the out-of-range query
`d = 7 ≥ total = 5` returns the *interior* point `(1, 0)`, not the last
path point `(2, 0)`: the endpoint clause of the claim fails on plateaued
cumulative distances. -/
theorem positionAtDistance_plateau_counterexample :
    ((0 : ℚ) ≤ 5 ∧ (5 : ℚ) ≤ 5) ∧
      ([(0 : ℚ), 5, 5].getD 2 0 ≤ 7) ∧
      positionAtDistance [((0 : ℚ), (0 : ℚ)), (1, 0), (2, 0)] [0, 5, 5] 7 =
        (1, 0) ∧
      ((1, 0) : ℚ × ℚ) ≠
        [((0 : ℚ), (0 : ℚ)), (1, 0), (2, 0)].getD 2 (0, 0) := by
  have hcl : max 0 (min (7 : ℚ) 5) = 5 := by
    norm_num [min_def, max_def]
  have hb : bsearchLo ([0, 5, 5] : List ℚ) 5 0 2 = 1 := by
    rw [bsearchLo]
    norm_num [List.getD_cons_zero, List.getD_cons_succ]
    rw [bsearchLo]
    norm_num [List.getD_cons_zero, List.getD_cons_succ]
    rw [bsearchLo]
    norm_num
  refine ⟨⟨by norm_num, by norm_num⟩, by norm_num [List.getD], ?_, ?_⟩
  · simp only [positionAtDistance]
    norm_num [List.getD_cons_zero, List.getD_cons_succ, hcl, hb, Prod.ext_iff]
  · norm_num [List.getD_cons_succ, List.getD_cons_zero, Prod.ext_iff]

/-! ### C3: rewind reset -/

/-! Projection equations for one accumulation frame, used to evaluate
concrete traces step by step. -/

theorem accumFrame_seen (cfg : AggConfig) (t : ℚ) (s : AggState) :
    (accumFrame cfg t s).seen = fun i =>
      if i < segmentCount cfg ∧ 0 < frameDensity cfg t i then true
      else s.seen i := by
  simp only [accumFrame]
  split <;> rfl

theorem accumFrame_maxDensity (cfg : AggConfig) (t : ℚ) (s : AggState) :
    (accumFrame cfg t s).maxDensity = fun i =>
      if i < segmentCount cfg ∧
          (if i < segmentCount cfg ∧ 0 < frameDensity cfg t i then true
           else s.seen i) = true ∧ s.maxDensity i < frameDensity cfg t i then
        frameDensity cfg t i
      else s.maxDensity i := by
  simp only [accumFrame]
  split <;> rfl

theorem accumFrame_lastTracked (cfg : AggConfig) (t : ℚ) (s : AggState) :
    (accumFrame cfg t s).lastTracked = s.lastTracked := by
  simp only [accumFrame]
  split <;> rfl

theorem accumFrame_nonZeroSum (cfg : AggConfig) (t : ℚ) (s : AggState)
    (hsmp : t = 0 ∨ SAMPLE_INTERVAL_SECONDS ≤ t - s.lastSample ∨
      s.lastSample = 0) :
    (accumFrame cfg t s).nonZeroSum = fun i =>
      if i < segmentCount cfg ∧ 0 < frameDensity cfg t i then
        s.nonZeroSum i + frameDensity cfg t i
      else s.nonZeroSum i := by
  simp only [accumFrame]
  rw [if_pos hsmp]

theorem accumFrame_nonZeroCount (cfg : AggConfig) (t : ℚ) (s : AggState)
    (hsmp : t = 0 ∨ SAMPLE_INTERVAL_SECONDS ≤ t - s.lastSample ∨
      s.lastSample = 0) :
    (accumFrame cfg t s).nonZeroCount = fun i =>
      if i < segmentCount cfg ∧ 0 < frameDensity cfg t i then
        s.nonZeroCount i + 1
      else s.nonZeroCount i := by
  simp only [accumFrame]
  rw [if_pos hsmp]

theorem accumFrame_lastSample (cfg : AggConfig) (t : ℚ) (s : AggState)
    (hsmp : t = 0 ∨ SAMPLE_INTERVAL_SECONDS ≤ t - s.lastSample ∨
      s.lastSample = 0) :
    (accumFrame cfg t s).lastSample = t := by
  simp only [accumFrame]
  rw [if_pos hsmp]

theorem accumFrame_windowSamples (cfg : AggConfig) (t : ℚ) (s : AggState)
    (hsmp : t = 0 ∨ SAMPLE_INTERVAL_SECONDS ≤ t - s.lastSample ∨
      s.lastSample = 0) :
    (accumFrame cfg t s).windowSamples =
      (evictLoop t (s.windowSamples ++
        [(t, fun i => if i < segmentCount cfg then frameDensity cfg t i
          else 0)])
        (fun i => if i < segmentCount cfg ∧ 0 < frameDensity cfg t i then
          s.windowSum i + frameDensity cfg t i else s.windowSum i)
        (fun i => if i < segmentCount cfg ∧ 0 < frameDensity cfg t i then
          s.windowCount i + 1 else s.windowCount i)
        (segmentCount cfg)).1 := by
  simp only [accumFrame]
  rw [if_pos hsmp]

theorem accumFrame_windowSum (cfg : AggConfig) (t : ℚ) (s : AggState)
    (hsmp : t = 0 ∨ SAMPLE_INTERVAL_SECONDS ≤ t - s.lastSample ∨
      s.lastSample = 0) :
    (accumFrame cfg t s).windowSum =
      (evictLoop t (s.windowSamples ++
        [(t, fun i => if i < segmentCount cfg then frameDensity cfg t i
          else 0)])
        (fun i => if i < segmentCount cfg ∧ 0 < frameDensity cfg t i then
          s.windowSum i + frameDensity cfg t i else s.windowSum i)
        (fun i => if i < segmentCount cfg ∧ 0 < frameDensity cfg t i then
          s.windowCount i + 1 else s.windowCount i)
        (segmentCount cfg)).2.1 := by
  simp only [accumFrame]
  rw [if_pos hsmp]

theorem accumFrame_windowCount (cfg : AggConfig) (t : ℚ) (s : AggState)
    (hsmp : t = 0 ∨ SAMPLE_INTERVAL_SECONDS ≤ t - s.lastSample ∨
      s.lastSample = 0) :
    (accumFrame cfg t s).windowCount =
      (evictLoop t (s.windowSamples ++
        [(t, fun i => if i < segmentCount cfg then frameDensity cfg t i
          else 0)])
        (fun i => if i < segmentCount cfg ∧ 0 < frameDensity cfg t i then
          s.windowSum i + frameDensity cfg t i else s.windowSum i)
        (fun i => if i < segmentCount cfg ∧ 0 < frameDensity cfg t i then
          s.windowCount i + 1 else s.windowCount i)
        (segmentCount cfg)).2.2 := by
  simp only [accumFrame]
  rw [if_pos hsmp]

theorem accumFrame_nonZeroSum_noSample (cfg : AggConfig) (t : ℚ)
    (s : AggState)
    (hns : ¬ (t = 0 ∨ SAMPLE_INTERVAL_SECONDS ≤ t - s.lastSample ∨
      s.lastSample = 0)) :
    (accumFrame cfg t s).nonZeroSum = s.nonZeroSum := by
  simp only [accumFrame]
  rw [if_neg hns]

theorem accumFrame_nonZeroCount_noSample (cfg : AggConfig) (t : ℚ)
    (s : AggState)
    (hns : ¬ (t = 0 ∨ SAMPLE_INTERVAL_SECONDS ≤ t - s.lastSample ∨
      s.lastSample = 0)) :
    (accumFrame cfg t s).nonZeroCount = s.nonZeroCount := by
  simp only [accumFrame]
  rw [if_neg hns]

theorem accumFrame_windowSum_noSample (cfg : AggConfig) (t : ℚ)
    (s : AggState)
    (hns : ¬ (t = 0 ∨ SAMPLE_INTERVAL_SECONDS ≤ t - s.lastSample ∨
      s.lastSample = 0)) :
    (accumFrame cfg t s).windowSum = s.windowSum := by
  simp only [accumFrame]
  rw [if_neg hns]

theorem accumFrame_windowCount_noSample (cfg : AggConfig) (t : ℚ)
    (s : AggState)
    (hns : ¬ (t = 0 ∨ SAMPLE_INTERVAL_SECONDS ≤ t - s.lastSample ∨
      s.lastSample = 0)) :
    (accumFrame cfg t s).windowCount = s.windowCount := by
  simp only [accumFrame]
  rw [if_neg hns]

theorem accumFrame_windowSamples_noSample (cfg : AggConfig) (t : ℚ)
    (s : AggState)
    (hns : ¬ (t = 0 ∨ SAMPLE_INTERVAL_SECONDS ≤ t - s.lastSample ∨
      s.lastSample = 0)) :
    (accumFrame cfg t s).windowSamples = s.windowSamples := by
  simp only [accumFrame]
  rw [if_neg hns]

theorem accumFrame_lastSample_noSample (cfg : AggConfig) (t : ℚ)
    (s : AggState)
    (hns : ¬ (t = 0 ∨ SAMPLE_INTERVAL_SECONDS ≤ t - s.lastSample ∨
      s.lastSample = 0)) :
    (accumFrame cfg t s).lastSample = s.lastSample := by
  simp only [accumFrame]
  rw [if_neg hns]

theorem aggStep_eq_accum (cfg : AggConfig) (t : ℚ) (s : AggState)
    (hg : ¬ (cfg.runners = [] ∨ cfg.total ≤ 0))
    (hres : ¬ t < s.lastTracked) :
    aggStep cfg true t s = { accumFrame cfg t s with lastTracked := t } := by
  unfold aggStep
  have hseg : 0 < segmentCount cfg :=
    lt_of_lt_of_le zero_lt_one (le_max_left _ _)
  simp only [if_neg hg, if_neg hres, eq_self_iff_true, true_and, if_pos hseg]

theorem aggStep_eq_accum_reset (cfg : AggConfig) (t : ℚ) (s : AggState)
    (hg : ¬ (cfg.runners = [] ∨ cfg.total ≤ 0))
    (hres : t < s.lastTracked) :
    aggStep cfg true t s =
      { accumFrame cfg t (resetStats s) with lastTracked := t } := by
  unfold aggStep
  have hseg : 0 < segmentCount cfg :=
    lt_of_lt_of_le zero_lt_one (le_max_left _ _)
  simp only [if_pos hres, eq_self_iff_true, true_and, if_pos hseg,
    if_neg hg]

theorem accumFrame_setTracked (cfg : AggConfig) (t x : ℚ) (s : AggState) :
    accumFrame cfg t { s with lastTracked := x } =
      { accumFrame cfg t s with lastTracked := x } := by
  rcases s with ⟨f1, f2, f3, f4, f5, f6, f7, f8, f9, f10, f11, f12, f13⟩
  simp only [accumFrame]
  by_cases hs : t = 0 ∨ SAMPLE_INTERVAL_SECONDS ≤ t - f12 ∨ f12 = 0
  · rw [if_pos hs, if_pos hs]
  · rw [if_neg hs, if_neg hs]

theorem aggStep_rewind_eq (cfg : AggConfig) (s : AggState) (t' : ℚ)
    (hr : cfg.runners ≠ []) (ht : 0 < cfg.total)
    (h : t' < s.lastTracked) :
    aggStep cfg true t' s = aggStep cfg true t' initAggState := by
  unfold aggStep
  have hguard : ¬ (cfg.runners = [] ∨ cfg.total ≤ 0) := by
    rintro (h1 | h2)
    · exact hr h1
    · exact absurd ht (not_lt.mpr h2)
  rw [if_neg hguard, if_neg hguard, if_pos h]
  have hseg : 0 < segmentCount cfg :=
    lt_of_lt_of_le zero_lt_one (le_max_left _ _)
  have hresetinit : resetStats initAggState = initAggState := rfl
  have hcond : (true = true ∧ 0 < segmentCount cfg) := ⟨rfl, hseg⟩
  have hkey : resetStats s =
      { initAggState with lastTracked := s.lastTracked } := rfl
  simp only [hresetinit, ite_self, eq_self_iff_true, true_and, if_pos hseg]
  rw [hkey, accumFrame_setTracked]

/-- Claim C3 (amended): after a rewind is detected (the incoming frame time
is below the last processed time), the following frames produce exactly the
state a *fresh* aggregator would produce on those same frames — i.e. the
post-rewind statistics depend only on the post-rewind frames.  (Processing
`[…, T', T]` is equivalent to processing `[T', T]` from scratch, not to
processing the single frame `[T]` from scratch; the rewind frame `T'`
itself is accumulated after the reset.) -/
theorem rewindResetComplete (cfg : AggConfig) (s : AggState) (t' : ℚ)
    (rest : List ℚ) (hr : cfg.runners ≠ []) (ht : 0 < cfg.total)
    (h : t' < s.lastTracked) :
    runPlaying cfg (t' :: rest) s = runPlaying cfg (t' :: rest) initAggState := by
  unfold runPlaying runAgg
  simp only [List.map_cons, List.foldl_cons]
  rw [aggStep_rewind_eq cfg s t' hr ht h]

/-- Closed witness for `rewindResetComplete` (rewinding from tracked time 2
to frame time 1). -/
theorem rewindResetComplete_witness :
    ([(⟨0, 1000⟩ : Runner)] ≠ ([] : List Runner)) ∧ ((0 : ℚ) < 100) ∧
      ((1 : ℚ) < 2) ∧
      runPlaying ⟨[⟨0, 1000⟩], 100, 100⟩ [1, 2]
          { initAggState with lastTracked := 2 } =
        runPlaying ⟨[⟨0, 1000⟩], 100, 100⟩ [1, 2] initAggState :=
  ⟨by simp, by norm_num, by norm_num,
    rewindResetComplete ⟨[⟨0, 1000⟩], 100, 100⟩
      { initAggState with lastTracked := 2 } 1 [2] (by simp) (by norm_num)
      (by norm_num : (1 : ℚ) < 2)⟩

set_option maxHeartbeats 1600000 in
/-- Claim C3 (counterexample): processing frames `[2, 1, 2]` (advance to 2,
rewind to 1, return to 2) leaves a non-zero-sample count of 2 for segment
0, while a freshly reset aggregator processing the single frame `[2]`
records count 1 — the rewound run keeps the statistics contributed by the
post-rewind frame at time 1, so the claim's equality with a single fresh
frame at T fails. -/
theorem rewind_state_ne_single_fresh_frame :
    (runPlaying ⟨[⟨0, 1000⟩], 100, 100⟩ [2, 1, 2]
        initAggState).nonZeroCount 0 ≠
      (runPlaying ⟨[⟨0, 1000⟩], 100, 100⟩ [2] initAggState).nonZeroCount 0 := by
  have e2 : (runPlaying ⟨[⟨0, 1000⟩], 100, 100⟩ [2]
      initAggState).nonZeroCount 0 = 1 := by
    norm_num [runPlaying, runAgg, aggStep, accumFrame, resetStats,
      initAggState, segmentCount, frameDensity, segmentTmpCount, segIndexOf,
      runnerDistanceMeters, evictLoop, SAMPLE_INTERVAL_SECONDS,
      WINDOW_SECONDS, List.countP_cons, List.countP_nil,
      apply_ite AggState.nonZeroCount, apply_ite AggState.lastSample,
      apply_ite AggState.lastTracked, ite_apply]
  have e1 : (runPlaying ⟨[⟨0, 1000⟩], 100, 100⟩ [2, 1, 2]
      initAggState).nonZeroCount 0 = 2 := by
    norm_num [runPlaying, runAgg, aggStep, accumFrame, resetStats,
      initAggState, segmentCount, frameDensity, segmentTmpCount, segIndexOf,
      runnerDistanceMeters, evictLoop, SAMPLE_INTERVAL_SECONDS,
      WINDOW_SECONDS, List.countP_cons, List.countP_nil,
      apply_ite AggState.nonZeroCount, apply_ite AggState.lastSample,
      apply_ite AggState.lastTracked, ite_apply]
  rw [e1, e2]
  norm_num

/-! ### C7: window sum/count consistency with the retained queue -/

theorem evictLoop_sublist (t : ℚ) (n : ℕ) :
    ∀ (q : List (ℚ × (ℕ → ℚ))) (wS : ℕ → ℚ) (wC : ℕ → ℕ),
      (evictLoop t q wS wC n).1.Sublist q := by
  intro q
  induction q with
  | nil => intro wS wC; simp [evictLoop]
  | cons a rest ih =>
    intro wS wC
    simp only [evictLoop]
    by_cases hold : WINDOW_SECONDS < t - a.1
    · rw [if_pos hold]
      exact (ih _ _).trans (List.sublist_cons_self a rest)
    · rw [if_neg hold]

theorem evictLoop_consistent (t : ℚ) (n : ℕ) :
    ∀ (q : List (ℚ × (ℕ → ℚ))) (wS : ℕ → ℚ) (wC : ℕ → ℕ),
      (∀ e ∈ q, ∀ i, n ≤ i → e.2 i = 0) →
      (∀ i, wS i = (q.map (fun e => if 0 < e.2 i then e.2 i else 0)).sum ∧
        wC i = (q.filter (fun e => decide (0 < e.2 i))).length) →
      ∀ i, (evictLoop t q wS wC n).2.1 i =
          ((evictLoop t q wS wC n).1.map
            (fun e => if 0 < e.2 i then e.2 i else 0)).sum ∧
        (evictLoop t q wS wC n).2.2 i =
          ((evictLoop t q wS wC n).1.filter
            (fun e => decide (0 < e.2 i))).length := by
  intro q
  induction q with
  | nil =>
    intro wS wC _ hc i
    simpa [evictLoop] using hc i
  | cons a rest ih =>
    intro wS wC hz hc i
    simp only [evictLoop]
    by_cases hold : WINDOW_SECONDS < t - a.1
    · rw [if_pos hold]
      refine ih _ _ (fun e he i' hi' => hz e (List.mem_cons_of_mem a he) i' hi') ?_ i
      intro i'
      obtain ⟨h1, h2⟩ := hc i'
      by_cases hin : i' < n ∧ 0 < a.2 i'
      · constructor
        · rw [if_pos hin, h1]
          simp only [List.map_cons, List.sum_cons, if_pos hin.2]
          ring
        · rw [if_pos hin, h2]
          have : (List.filter (fun e => decide (0 < e.2 i')) (a :: rest)) =
              a :: List.filter (fun e => decide (0 < e.2 i')) rest := by
            simp [List.filter_cons, hin.2]
          rw [this, List.length_cons]
          omega
      · have hpos : ¬ 0 < a.2 i' := by
          intro hp
          by_cases hlt : i' < n
          · exact hin ⟨hlt, hp⟩
          · rw [hz a (List.mem_cons_self a rest) i' (by omega)] at hp
            exact lt_irrefl 0 hp
        constructor
        · rw [if_neg hin, h1]
          simp [List.map_cons, List.sum_cons, if_neg hpos]
        · rw [if_neg hin, h2]
          have : (List.filter (fun e => decide (0 < e.2 i')) (a :: rest)) =
              List.filter (fun e => decide (0 < e.2 i')) rest := by
            simp [List.filter_cons, hpos]
          rw [this]
    · rw [if_neg hold]
      exact hc i

theorem aggStep_windowConsistent (cfg : AggConfig) (p : Bool) (t : ℚ)
    (s : AggState)
    (hz : ∀ e ∈ s.windowSamples, ∀ i, segmentCount cfg ≤ i → e.2 i = 0)
    (hc : ∀ i, s.windowSum i =
        (s.windowSamples.map (fun e => if 0 < e.2 i then e.2 i else 0)).sum ∧
      s.windowCount i =
        (s.windowSamples.filter (fun e => decide (0 < e.2 i))).length) :
    (∀ e ∈ (aggStep cfg p t s).windowSamples, ∀ i,
        segmentCount cfg ≤ i → e.2 i = 0) ∧
      ∀ i, (aggStep cfg p t s).windowSum i =
          ((aggStep cfg p t s).windowSamples.map
            (fun e => if 0 < e.2 i then e.2 i else 0)).sum ∧
        (aggStep cfg p t s).windowCount i =
          ((aggStep cfg p t s).windowSamples.filter
            (fun e => decide (0 < e.2 i))).length := by
  unfold aggStep
  by_cases hguard : cfg.runners = [] ∨ cfg.total ≤ 0
  · rw [if_pos hguard]
    exact ⟨hz, hc⟩
  rw [if_neg hguard]
  set n := segmentCount cfg with hn
  -- the post-reset state satisfies the same two invariants
  have hstep : ∀ s0 : AggState,
      (∀ e ∈ s0.windowSamples, ∀ i, n ≤ i → e.2 i = 0) →
      (∀ i, s0.windowSum i =
          (s0.windowSamples.map
            (fun e => if 0 < e.2 i then e.2 i else 0)).sum ∧
        s0.windowCount i =
          (s0.windowSamples.filter (fun e => decide (0 < e.2 i))).length) →
      (∀ e ∈ (accumFrame cfg t s0).windowSamples, ∀ i, n ≤ i → e.2 i = 0) ∧
        ∀ i, (accumFrame cfg t s0).windowSum i =
            ((accumFrame cfg t s0).windowSamples.map
              (fun e => if 0 < e.2 i then e.2 i else 0)).sum ∧
          (accumFrame cfg t s0).windowCount i =
            ((accumFrame cfg t s0).windowSamples.filter
              (fun e => decide (0 < e.2 i))).length := by
    intro s0 hz0 hc0
    unfold accumFrame
    by_cases hsmp : t = 0 ∨ SAMPLE_INTERVAL_SECONDS ≤ t - s0.lastSample ∨
        s0.lastSample = 0
    · rw [if_pos hsmp]
      simp only [← hn]
      have hz1 : ∀ e ∈ s0.windowSamples ++
          [(t, fun i => if i < n then frameDensity cfg t i else 0)], ∀ i,
          n ≤ i → e.2 i = 0 := by
        intro e he i hi
        rcases List.mem_append.mp he with h | h
        · exact hz0 e h i hi
        · rcases List.mem_singleton.mp h with rfl
          simp only []
          rw [if_neg (by omega)]
      have hc1 : ∀ i,
          (fun i => if i < n ∧ 0 < frameDensity cfg t i then
            s0.windowSum i + frameDensity cfg t i else s0.windowSum i) i =
            ((s0.windowSamples ++
              [(t, fun i => if i < n then frameDensity cfg t i else 0)]).map
                (fun e => if 0 < e.2 i then e.2 i else 0)).sum ∧
          (fun i => if i < n ∧ 0 < frameDensity cfg t i then
            s0.windowCount i + 1 else s0.windowCount i) i =
            ((s0.windowSamples ++
              [(t, fun i => if i < n then frameDensity cfg t i else 0)]).filter
                (fun e => decide (0 < e.2 i))).length := by
        intro i
        obtain ⟨h1, h2⟩ := hc0 i
        simp only [List.map_append, List.sum_append, List.filter_append,
          List.length_append, List.map_cons, List.map_nil, List.sum_cons,
          List.sum_nil, List.filter_cons, List.filter_nil]
        by_cases hin : i < n ∧ 0 < frameDensity cfg t i
        · have hsnap : (0 : ℚ) < (if i < n then frameDensity cfg t i else 0) := by
            rw [if_pos hin.1]
            exact hin.2
          constructor
          · rw [if_pos hin, h1, if_pos hsnap, if_pos hin.1]
            ring
          · rw [if_pos hin, h2]
            simp [hsnap]
        · have hsnap : ¬ (0 : ℚ) < (if i < n then frameDensity cfg t i else 0) := by
            by_cases hlt : i < n
            · rw [if_pos hlt]
              intro hp
              exact hin ⟨hlt, hp⟩
            · rw [if_neg hlt]
              exact lt_irrefl 0
          constructor
          · rw [if_neg hin, h1, if_neg hsnap]
            ring
          · rw [if_neg hin, h2]
            simp [hsnap]
      constructor
      · intro e he i hi
        exact hz1 e ((evictLoop_sublist t n _ _ _).mem he) i hi
      · intro i
        exact evictLoop_consistent t n _ _ _ hz1 hc1 i
    · rw [if_neg hsmp]
      exact ⟨hz0, hc0⟩
  by_cases hres : t < s.lastTracked
  · simp only [if_pos hres]
    by_cases hp : p = true ∧ 0 < segmentCount cfg
    · simp only [if_pos hp]
      exact hstep (resetStats s) (by simp [resetStats]) (by simp [resetStats])
    · simp only [if_neg hp]
      exact ⟨by simp [resetStats], by simp [resetStats]⟩
  · simp only [if_neg hres]
    by_cases hp : p = true ∧ 0 < segmentCount cfg
    · simp only [if_pos hp]
      exact hstep s hz hc
    · simp only [if_neg hp]
      exact ⟨hz, hc⟩

/-- Claim C7: after any frame sequence, for every segment `i` the window
sum equals the sum of the positive per-segment values of the snapshots
currently retained in the window queue, and the window count equals the
number of retained snapshots whose value for `i` is positive. -/
theorem windowConsistency (cfg : AggConfig) (frames : List (Bool × ℚ))
    (i : ℕ) :
    (runAgg cfg frames initAggState).windowSum i =
        ((runAgg cfg frames initAggState).windowSamples.map
          (fun e => if 0 < e.2 i then e.2 i else 0)).sum ∧
      (runAgg cfg frames initAggState).windowCount i =
        ((runAgg cfg frames initAggState).windowSamples.filter
          (fun e => decide (0 < e.2 i))).length := by
  suffices h : ∀ (fs : List (Bool × ℚ)) (s : AggState),
      (∀ e ∈ s.windowSamples, ∀ j, segmentCount cfg ≤ j → e.2 j = 0) →
      (∀ j, s.windowSum j =
          (s.windowSamples.map (fun e => if 0 < e.2 j then e.2 j else 0)).sum ∧
        s.windowCount j =
          (s.windowSamples.filter (fun e => decide (0 < e.2 j))).length) →
      (∀ e ∈ (runAgg cfg fs s).windowSamples, ∀ j,
          segmentCount cfg ≤ j → e.2 j = 0) ∧
        ∀ j, (runAgg cfg fs s).windowSum j =
            ((runAgg cfg fs s).windowSamples.map
              (fun e => if 0 < e.2 j then e.2 j else 0)).sum ∧
          (runAgg cfg fs s).windowCount j =
            ((runAgg cfg fs s).windowSamples.filter
              (fun e => decide (0 < e.2 j))).length by
    exact (h frames initAggState (by simp [initAggState])
      (by simp [initAggState])).2 i
  intro fs
  induction fs with
  | nil =>
    intro s hz hc
    exact ⟨hz, hc⟩
  | cons f rest ih =>
    intro s hz hc
    have hstep := aggStep_windowConsistent cfg f.1 f.2 s hz hc
    exact ih (aggStep cfg f.1 f.2 s) hstep.1 hstep.2

/-! ### C4: window sample ages -/

theorem evictLoop_age (t : ℚ) (n : ℕ) :
    ∀ (q : List (ℚ × (ℕ → ℚ))) (wS : ℕ → ℚ) (wC : ℕ → ℕ),
      List.Pairwise (fun a b : ℚ × (ℕ → ℚ) => a.1 ≤ b.1) q →
      ∀ e ∈ (evictLoop t q wS wC n).1, t - e.1 ≤ WINDOW_SECONDS := by
  intro q
  induction q with
  | nil =>
    intro wS wC _ e he
    simp [evictLoop] at he
  | cons a rest ih =>
    intro wS wC hpw e he
    simp only [evictLoop] at he
    by_cases hold : WINDOW_SECONDS < t - a.1
    · rw [if_pos hold] at he
      exact ih _ _ (List.Pairwise.of_cons hpw) e he
    · rw [if_neg hold] at he
      have h180 := not_lt.mp hold
      rcases List.mem_cons.mp he with rfl | hmem
      · exact h180
      · have hle := (List.pairwise_cons.mp hpw).1 e hmem
        linarith

theorem aggStep_windowAge (cfg : AggConfig) (p : Bool) (t : ℚ) (s : AggState)
    (hpw : List.Pairwise (fun a b : ℚ × (ℕ → ℚ) => a.1 ≤ b.1)
      s.windowSamples)
    (htr : ∀ e ∈ s.windowSamples, e.1 ≤ s.lastTracked)
    (hage : ∀ e ∈ s.windowSamples, s.lastSample - e.1 ≤ WINDOW_SECONDS) :
    List.Pairwise (fun a b : ℚ × (ℕ → ℚ) => a.1 ≤ b.1)
        (aggStep cfg p t s).windowSamples ∧
      (∀ e ∈ (aggStep cfg p t s).windowSamples,
        e.1 ≤ (aggStep cfg p t s).lastTracked) ∧
      ∀ e ∈ (aggStep cfg p t s).windowSamples,
        (aggStep cfg p t s).lastSample - e.1 ≤ WINDOW_SECONDS := by
  unfold aggStep
  by_cases hguard : cfg.runners = [] ∨ cfg.total ≤ 0
  · rw [if_pos hguard]
    exact ⟨hpw, htr, hage⟩
  rw [if_neg hguard]
  have hstep : ∀ s0 : AggState,
      List.Pairwise (fun a b : ℚ × (ℕ → ℚ) => a.1 ≤ b.1)
        s0.windowSamples →
      (∀ e ∈ s0.windowSamples, e.1 ≤ t) →
      (∀ e ∈ s0.windowSamples, s0.lastSample - e.1 ≤ WINDOW_SECONDS) →
      List.Pairwise (fun a b : ℚ × (ℕ → ℚ) => a.1 ≤ b.1)
          (accumFrame cfg t s0).windowSamples ∧
        (∀ e ∈ (accumFrame cfg t s0).windowSamples, e.1 ≤ t) ∧
        ∀ e ∈ (accumFrame cfg t s0).windowSamples,
          (accumFrame cfg t s0).lastSample - e.1 ≤ WINDOW_SECONDS := by
    intro s0 h1 h2 h3
    unfold accumFrame
    by_cases hsmp : t = 0 ∨ SAMPLE_INTERVAL_SECONDS ≤ t - s0.lastSample ∨
        s0.lastSample = 0
    · rw [if_pos hsmp]
      have hpw1 : List.Pairwise (fun a b : ℚ × (ℕ → ℚ) => a.1 ≤ b.1)
          (s0.windowSamples ++ [(t, fun i =>
            if i < segmentCount cfg then frameDensity cfg t i else 0)]) := by
        rw [List.pairwise_append]
        refine ⟨h1, List.pairwise_singleton _ _, ?_⟩
        intro a ha b hb
        rcases List.mem_singleton.mp hb with rfl
        exact h2 a ha
      refine ⟨?_, ?_, ?_⟩
      · exact List.Pairwise.sublist (evictLoop_sublist t _ _ _ _) hpw1
      · intro e he
        have hq1 := (evictLoop_sublist t _ _ _ _).subset he
        rcases List.mem_append.mp hq1 with h | h
        · exact h2 e h
        · rcases List.mem_singleton.mp h with rfl
          exact le_rfl
      · intro e he
        exact evictLoop_age t _ _ _ _ hpw1 e he
    · rw [if_neg hsmp]
      exact ⟨h1, h2, h3⟩
  by_cases hres : t < s.lastTracked
  · simp only [if_pos hres]
    by_cases hp : p = true ∧ 0 < segmentCount cfg
    · simp only [if_pos hp]
      have h := hstep (resetStats s) (by simp [resetStats])
        (by simp [resetStats]) (by simp [resetStats])
      exact ⟨h.1, h.2.1, h.2.2⟩
    · simp only [if_neg hp]
      exact ⟨by simp [resetStats], by simp [resetStats], by simp [resetStats]⟩
  · simp only [if_neg hres]
    have hle : ∀ e ∈ s.windowSamples, e.1 ≤ t := by
      intro e he
      exact le_trans (htr e he) (not_lt.mp hres)
    by_cases hp : p = true ∧ 0 < segmentCount cfg
    · simp only [if_pos hp]
      have h := hstep s hpw hle hage
      exact ⟨h.1, h.2.1, h.2.2⟩
    · simp only [if_neg hp]
      exact ⟨hpw, hle, hage⟩

/-- Claim C4 (amended): eviction runs only when a new sample is pushed
while playing, and at each such sampling instant every sample retained by
the eviction loop is no older than `WINDOW_SECONDS` relative to that
instant; hence after any frame sequence every retained sample is within
the window of the *last sampling time* (`lastSample`).  Relative to the
*current* simulated time the retained samples can be older than the window
(no eviction happens on frames that do not sample), which is what the
counterexample exhibits. -/
theorem windowAgeBound (cfg : AggConfig) (frames : List (Bool × ℚ)) :
    (runAgg cfg frames initAggState).windowSamples.all
      (fun e => decide ((runAgg cfg frames initAggState).lastSample - e.1 ≤
        WINDOW_SECONDS)) = true := by
  suffices h : ∀ (fs : List (Bool × ℚ)) (s : AggState),
      List.Pairwise (fun a b : ℚ × (ℕ → ℚ) => a.1 ≤ b.1) s.windowSamples →
      (∀ e ∈ s.windowSamples, e.1 ≤ s.lastTracked) →
      (∀ e ∈ s.windowSamples, s.lastSample - e.1 ≤ WINDOW_SECONDS) →
      List.Pairwise (fun a b : ℚ × (ℕ → ℚ) => a.1 ≤ b.1)
          (runAgg cfg fs s).windowSamples ∧
        (∀ e ∈ (runAgg cfg fs s).windowSamples,
          e.1 ≤ (runAgg cfg fs s).lastTracked) ∧
        ∀ e ∈ (runAgg cfg fs s).windowSamples,
          (runAgg cfg fs s).lastSample - e.1 ≤ WINDOW_SECONDS by
    rw [List.all_eq_true]
    intro e he
    rw [decide_eq_true_eq]
    exact (h frames initAggState (by simp [initAggState])
      (by simp [initAggState]) (by simp [initAggState])).2.2 e he
  intro fs
  induction fs with
  | nil =>
    intro s h1 h2 h3
    exact ⟨h1, h2, h3⟩
  | cons f rest ih =>
    intro s h1 h2 h3
    have hstep := aggStep_windowAge cfg f.1 f.2 s h1 h2 h3
    exact ih (aggStep cfg f.1 f.2 s) hstep.1 hstep.2.1 hstep.2.2

set_option maxHeartbeats 4000000 in
/-- Claim C4 (counterexample): one runner on a 200 m route with 100 m
segments, playing frames at `t = 0, 180, 180.5`.  The frame at 180.5 takes
no sample (0.5 s < sampling interval), so no eviction runs, and the
reported window average for segment 0 is `1/100` — made up entirely of the
sample taken at `t = 0`, which is 180.5 s old (older than the 180 s
window) at the reported frame.  Computing only from samples no older than
the window relative to current simulated time (the claim's formula) gives
0. -/
theorem windowAverage_includes_stale_sample :
    avgModeValue
        (runPlaying ⟨[⟨0, 1800⟩], 200, 100⟩ [0, 180, 361 / 2]
          initAggState) .window 0 ≠
      claimWindowAverage
        (runPlaying ⟨[⟨0, 1800⟩], 200, 100⟩ [0, 180, 361 / 2]
          initAggState)
        (runPlaying ⟨[⟨0, 1800⟩], 200, 100⟩ [0, 180, 361 / 2]
          initAggState).lastTracked 0 := by
  have e1 : avgModeValue
      (runPlaying ⟨[⟨0, 1800⟩], 200, 100⟩ [0, 180, 361 / 2]
        initAggState) .window 0 = 1 / 100 := by
    norm_num [runPlaying, runAgg, aggStep, accumFrame, resetStats,
      initAggState, segmentCount, frameDensity, segmentTmpCount, segIndexOf,
      runnerDistanceMeters, evictLoop, avgModeValue,
      SAMPLE_INTERVAL_SECONDS, WINDOW_SECONDS, List.countP_cons,
      List.countP_nil, apply_ite AggState.seen, apply_ite AggState.windowSum,
      apply_ite AggState.windowCount, apply_ite AggState.lastSample,
      apply_ite AggState.lastTracked, ite_apply]
  have e2 : claimWindowAverage
      (runPlaying ⟨[⟨0, 1800⟩], 200, 100⟩ [0, 180, 361 / 2]
        initAggState)
      (runPlaying ⟨[⟨0, 1800⟩], 200, 100⟩ [0, 180, 361 / 2]
        initAggState).lastTracked 0 = 0 := by
    norm_num [runPlaying, runAgg, aggStep, accumFrame, resetStats,
      initAggState, segmentCount, frameDensity, segmentTmpCount, segIndexOf,
      runnerDistanceMeters, evictLoop, claimWindowAverage,
      SAMPLE_INTERVAL_SECONDS, WINDOW_SECONDS, List.countP_cons,
      List.countP_nil, List.filter_cons, List.filter_nil,
      apply_ite AggState.windowSamples, apply_ite AggState.lastSample,
      apply_ite AggState.lastTracked, ite_apply]
  rw [e1, e2]
  norm_num

/-! ### C1: group-level reporting -/

/-- Claim C1 (amended): each member segment accumulates its own statistics
from its own per-frame densities, and the reported group value is the
*maximum over the seen member segments of the per-segment statistic
values* (the loop of MapView.tsx 556-568 computes exactly this fold). -/
theorem groupValue_eq_fold (s : AggState) (heat : HeatMetric)
    (mode : AverageMode) (segToGroup : ℕ → ℕ) (n g : ℕ) :
    groupValue s heat mode segToGroup n g =
      ((Finset.range n).filter
        (fun i => s.seen i = true ∧ segToGroup i = g)).fold max 0
        (segmentValue s heat mode) := by
  have hmax : ∀ a b : ℚ, (if a < b then b else a) = max a b := by
    intro a b
    rcases lt_or_le a b with h | h
    · rw [if_pos h, max_eq_right h.le]
    · rw [if_neg (not_lt.mpr h), max_eq_left h]
  unfold groupValue
  induction n with
  | zero => simp
  | succ n ih =>
    rw [(List.range_succ n : List.range (n + 1) = List.range n ++ [n]),
      List.foldl_append, List.foldl_cons, List.foldl_nil, ih]
    rw [Finset.range_succ, Finset.filter_insert]
    by_cases hcond : s.seen n = true ∧ segToGroup n = g
    · rw [if_pos hcond, if_pos hcond]
      rw [Finset.fold_insert (by simp)]
      rw [hmax]
      exact max_comm _ _
    · rw [if_neg hcond, if_neg hcond]

set_option maxHeartbeats 800000 in
/-- Claim C1 (counterexample): three runners on a 20 m route with 10 m
segments, both segments in one group, playing frames at `t = 1, 2`.  The
per-frame occupancies are `[2, 1]` then `[1, 2]`, so each segment's own
active-average is `3/20` and the reported group value (average mode,
active-average submode) is `max(3/20, 3/20) = 3/20`.  The claim's
formula — the statistic over the group's per-frame observations
`max(0.2, 0.1) = 0.2` and `max(0.1, 0.2) = 0.2` — gives `1/5 ≠ 3/20`:
group values are not computed from per-frame group maxima. -/
theorem groupValue_ne_groupFrameObsStat :
    groupValue (runPlaying ⟨[⟨0, 1000000⟩, ⟨1 / 2, 100⟩, ⟨0, 250 / 3⟩], 20, 10⟩
        [1, 2] initAggState) .average .active_avg (fun _ => 0) 2 0 ≠
      claimGroupActiveAvg ⟨[⟨0, 1000000⟩, ⟨1 / 2, 100⟩, ⟨0, 250 / 3⟩], 20, 10⟩
        (fun _ => 0) 0 [1, 2] := by
  have hrange : List.range 2 = [0, 1] := rfl
  have e1 : groupValue
      (runPlaying ⟨[⟨0, 1000000⟩, ⟨1 / 2, 100⟩, ⟨0, 250 / 3⟩], 20, 10⟩
        [1, 2] initAggState) .average .active_avg (fun _ => 0) 2 0 =
      3 / 20 := by
    have hg : ¬ ((⟨[⟨0, 1000000⟩, ⟨1 / 2, 100⟩, ⟨0, 250 / 3⟩], 20, 10⟩ :
        AggConfig).runners = [] ∨
        (⟨[⟨0, 1000000⟩, ⟨1 / 2, 100⟩, ⟨0, 250 / 3⟩], 20, 10⟩ :
        AggConfig).total ≤ 0) := by
      simp
    have h1 := aggStep_eq_accum
      ⟨[⟨0, 1000000⟩, ⟨1 / 2, 100⟩, ⟨0, 250 / 3⟩], 20, 10⟩
      1 initAggState hg (by norm_num [initAggState])
    have hs1samp : (aggStep ⟨[⟨0, 1000000⟩, ⟨1 / 2, 100⟩, ⟨0, 250 / 3⟩], 20, 10⟩
        true 1 initAggState).lastSample = 1 := by
      rw [h1]
      exact accumFrame_lastSample _ 1 initAggState (Or.inr (Or.inr rfl))
    have hs1tr : (aggStep ⟨[⟨0, 1000000⟩, ⟨1 / 2, 100⟩, ⟨0, 250 / 3⟩], 20, 10⟩
        true 1 initAggState).lastTracked = 1 := by
      rw [h1]
    have hsmp2 : (2 : ℚ) = 0 ∨ SAMPLE_INTERVAL_SECONDS ≤ 2 -
        (aggStep ⟨[⟨0, 1000000⟩, ⟨1 / 2, 100⟩, ⟨0, 250 / 3⟩], 20, 10⟩
          true 1 initAggState).lastSample ∨
        (aggStep ⟨[⟨0, 1000000⟩, ⟨1 / 2, 100⟩, ⟨0, 250 / 3⟩], 20, 10⟩
          true 1 initAggState).lastSample = 0 := by
      refine Or.inr (Or.inl ?_)
      rw [hs1samp]
      norm_num [SAMPLE_INTERVAL_SECONDS]
    have h2 := aggStep_eq_accum
      ⟨[⟨0, 1000000⟩, ⟨1 / 2, 100⟩, ⟨0, 250 / 3⟩], 20, 10⟩
      2 (aggStep ⟨[⟨0, 1000000⟩, ⟨1 / 2, 100⟩, ⟨0, 250 / 3⟩], 20, 10⟩
        true 1 initAggState) hg (by rw [hs1tr]; norm_num)
    have hs1seen : (aggStep ⟨[⟨0, 1000000⟩, ⟨1 / 2, 100⟩, ⟨0, 250 / 3⟩], 20, 10⟩
        true 1 initAggState).seen = fun i =>
        if i < segmentCount ⟨[⟨0, 1000000⟩, ⟨1 / 2, 100⟩, ⟨0, 250 / 3⟩], 20, 10⟩ ∧
            0 < frameDensity ⟨[⟨0, 1000000⟩, ⟨1 / 2, 100⟩, ⟨0, 250 / 3⟩], 20, 10⟩
              1 i then
          true
        else initAggState.seen i := by
      rw [h1]
      exact accumFrame_seen _ 1 initAggState
    have hs1sum : (aggStep ⟨[⟨0, 1000000⟩, ⟨1 / 2, 100⟩, ⟨0, 250 / 3⟩], 20, 10⟩
        true 1 initAggState).nonZeroSum = fun i =>
        if i < segmentCount ⟨[⟨0, 1000000⟩, ⟨1 / 2, 100⟩, ⟨0, 250 / 3⟩], 20, 10⟩ ∧
            0 < frameDensity ⟨[⟨0, 1000000⟩, ⟨1 / 2, 100⟩, ⟨0, 250 / 3⟩], 20, 10⟩
              1 i then
          initAggState.nonZeroSum i +
            frameDensity ⟨[⟨0, 1000000⟩, ⟨1 / 2, 100⟩, ⟨0, 250 / 3⟩], 20, 10⟩ 1 i
        else initAggState.nonZeroSum i := by
      rw [h1]
      exact accumFrame_nonZeroSum _ 1 initAggState (Or.inr (Or.inr rfl))
    have hs1cnt : (aggStep ⟨[⟨0, 1000000⟩, ⟨1 / 2, 100⟩, ⟨0, 250 / 3⟩], 20, 10⟩
        true 1 initAggState).nonZeroCount = fun i =>
        if i < segmentCount ⟨[⟨0, 1000000⟩, ⟨1 / 2, 100⟩, ⟨0, 250 / 3⟩], 20, 10⟩ ∧
            0 < frameDensity ⟨[⟨0, 1000000⟩, ⟨1 / 2, 100⟩, ⟨0, 250 / 3⟩], 20, 10⟩
              1 i then
          initAggState.nonZeroCount i + 1
        else initAggState.nonZeroCount i := by
      rw [h1]
      exact accumFrame_nonZeroCount _ 1 initAggState (Or.inr (Or.inr rfl))
    have hd10 : frameDensity ⟨[⟨0, 1000000⟩, ⟨1 / 2, 100⟩, ⟨0, 250 / 3⟩], 20, 10⟩
        1 0 = 1 / 5 := by
      norm_num [frameDensity, segmentTmpCount, segIndexOf, runnerDistanceMeters,
        segmentCount, List.countP_cons, List.countP_nil]
    have hd11 : frameDensity ⟨[⟨0, 1000000⟩, ⟨1 / 2, 100⟩, ⟨0, 250 / 3⟩], 20, 10⟩
        1 1 = 1 / 10 := by
      norm_num [frameDensity, segmentTmpCount, segIndexOf, runnerDistanceMeters,
        segmentCount, List.countP_cons, List.countP_nil]
    have hd20 : frameDensity ⟨[⟨0, 1000000⟩, ⟨1 / 2, 100⟩, ⟨0, 250 / 3⟩], 20, 10⟩
        2 0 = 1 / 10 := by
      norm_num [frameDensity, segmentTmpCount, segIndexOf, runnerDistanceMeters,
        segmentCount, List.countP_cons, List.countP_nil]
    have hd21 : frameDensity ⟨[⟨0, 1000000⟩, ⟨1 / 2, 100⟩, ⟨0, 250 / 3⟩], 20, 10⟩
        2 1 = 1 / 5 := by
      norm_num [frameDensity, segmentTmpCount, segIndexOf, runnerDistanceMeters,
        segmentCount, List.countP_cons, List.countP_nil]
    have hrun : runPlaying ⟨[⟨0, 1000000⟩, ⟨1 / 2, 100⟩, ⟨0, 250 / 3⟩], 20, 10⟩
        [1, 2] initAggState =
        aggStep ⟨[⟨0, 1000000⟩, ⟨1 / 2, 100⟩, ⟨0, 250 / 3⟩], 20, 10⟩ true 2
          (aggStep ⟨[⟨0, 1000000⟩, ⟨1 / 2, 100⟩, ⟨0, 250 / 3⟩], 20, 10⟩ true 1
            initAggState) := rfl
    have hinit_cnt : ∀ i, initAggState.nonZeroCount i = 0 := fun _ => rfl
    have hinit_sum : ∀ i, initAggState.nonZeroSum i = 0 := fun _ => rfl
    have hinit_seen : ∀ i, initAggState.seen i = false := fun _ => rfl
    rw [hrun, h2]
    norm_num [groupValue, avgModeValue, segmentValue, hrange,
      accumFrame_seen, accumFrame_nonZeroSum _ 2 _ hsmp2,
      accumFrame_nonZeroCount _ 2 _ hsmp2, hs1seen, hs1sum, hs1cnt,
      hd10, hd11, hd20, hd21, hinit_cnt, hinit_sum, hinit_seen, segmentCount]
  have e2 : claimGroupActiveAvg
      ⟨[⟨0, 1000000⟩, ⟨1 / 2, 100⟩, ⟨0, 250 / 3⟩], 20, 10⟩
      (fun _ => 0) 0 [1, 2] = 1 / 5 := by
    have hseg : segmentCount ⟨[⟨0, 1000000⟩, ⟨1 / 2, 100⟩, ⟨0, 250 / 3⟩],
        20, 10⟩ = 2 := by
      norm_num [segmentCount]
      rfl
    norm_num [claimGroupActiveAvg, claimGroupFrameObs, hseg, hrange,
      frameDensity, segmentTmpCount, segIndexOf, runnerDistanceMeters,
      List.countP_cons, List.countP_nil, List.filter_cons, List.filter_nil]
  rw [e1, e2]
  norm_num

/-- One application of `groupStep`, with every pipeline stage exposed as
an equation hypothesis so that concrete runs can be evaluated stage by
stage. -/
theorem groupStep_eval (bp : List (ℚ × ℚ)) (L : ℚ) (st : GroupBuildState)
    (i : ℕ) (a b : ℚ × ℚ) (dx dy ds ss tol : ℚ) (sc : ℕ)
    (col : List ℕ × List (ℤ × ℤ)) (acc : List ℕ) (pr : List ℕ × List ℕ)
    (ha : bp.getD i (0, 0) = a) (hb : bp.getD (i + 1) (0, 0) = b)
    (hdx : b.1 - a.1 = dx) (hdy : b.2 - a.2 = dy)
    (hds : dx * dx + dy * dy = ds)
    (hss : sampleStepM L = ss) (htol : toleranceM L = tol)
    (hsc : max 1 (ceilSqrtDiv ds ss) = sc)
    (hcol : collectCandidates st.cells a.1 a.2 dx dy tol sc = col)
    (hacc : acceptedTargets bp L i col.1 = acc)
    (hpr : acc.foldl (fun pr j => ufUnion pr.1 pr.2 i j)
      (st.parent, st.rank) = pr) :
    groupStep bp L st i =
      { parent := pr.1, rank := pr.2,
        cells := col.2.foldl (fun c k => cellsAdd c k i) st.cells } := by
  subst hpr hacc hcol hsc htol hss hds hdy hdx hb ha
  rfl

/-- Stop equation of the sample-count search. -/
theorem ceilSqrtDivGo_stop (lenSq step : ℚ) (fuel n : ℕ) (hf : fuel ≠ 0)
    (h : lenSq ≤ (n : ℚ) * step * ((n : ℚ) * step)) :
    ceilSqrtDivGo lenSq step fuel n = n := by
  rw [ceilSqrtDivGo, if_neg hf, if_pos h]

/-- Step equation of the sample-count search. -/
theorem ceilSqrtDivGo_step (lenSq step : ℚ) (fuel n : ℕ) (hf : fuel ≠ 0)
    (h : ¬ lenSq ≤ (n : ℚ) * step * ((n : ℚ) * step)) :
    ceilSqrtDivGo lenSq step fuel n =
      ceilSqrtDivGo lenSq step (fuel - 1) (n + 1) := by
  rw [ceilSqrtDivGo, if_neg hf, if_neg h]

/-- A 10 m segment sampled at 2 m steps gets five intervals. -/
theorem ceilSqrtDiv_100_2 : ceilSqrtDiv 100 2 = 5 := by
  rw [ceilSqrtDiv,
    show (⌈(100 : ℚ)⌉.toNat + 2) * (⌈1 / (2 : ℚ)⌉.toNat + 2) = 306 by
      rw [show ⌈(100 : ℚ)⌉ = 100 by norm_num,
        show ⌈(1 : ℚ) / 2⌉ = 1 by rw [Int.ceil_eq_iff] <;> norm_num]
      rfl,
    ceilSqrtDivGo_step 100 2 306 0 (by norm_num) (by norm_num),
    ceilSqrtDivGo_step 100 2 305 1 (by norm_num) (by norm_num),
    ceilSqrtDivGo_step 100 2 304 2 (by norm_num) (by norm_num),
    ceilSqrtDivGo_step 100 2 303 3 (by norm_num) (by norm_num),
    ceilSqrtDivGo_step 100 2 302 4 (by norm_num) (by norm_num),
    ceilSqrtDivGo_stop 100 2 301 5 (by norm_num) (by norm_num)]

/-- A 3 m segment sampled at 2 m steps gets two intervals. -/
theorem ceilSqrtDiv_9_2 : ceilSqrtDiv 9 2 = 2 := by
  rw [ceilSqrtDiv,
    show (⌈(9 : ℚ)⌉.toNat + 2) * (⌈1 / (2 : ℚ)⌉.toNat + 2) = 33 by
      rw [show ⌈(9 : ℚ)⌉ = 9 by norm_num,
        show ⌈(1 : ℚ) / 2⌉ = 1 by rw [Int.ceil_eq_iff] <;> norm_num]
      rfl,
    ceilSqrtDivGo_step 9 2 33 0 (by norm_num) (by norm_num),
    ceilSqrtDivGo_step 9 2 32 1 (by norm_num) (by norm_num),
    ceilSqrtDivGo_stop 9 2 31 2 (by norm_num) (by norm_num)]

/-- `find` on a root returns immediately. -/
theorem ufFind_stop (fuel : ℕ) (parent : List ℕ) (x : ℕ) (hf : fuel ≠ 0)
    (h : parent[x]?.getD x = x) : ufFind fuel parent x = (x, parent) := by
  rw [ufFind]
  simp [hf, h]

/-- One path-halving step of `find`. -/
theorem ufFind_step (fuel : ℕ) (parent : List ℕ) (x : ℕ) (hf : fuel ≠ 0)
    (h : ¬ parent[x]?.getD x = x) :
    ufFind fuel parent x =
      ufFind (fuel - 1)
        (parent.set x
          (parent[parent[x]?.getD x]?.getD (parent[x]?.getD x)))
        (parent[parent[x]?.getD x]?.getD (parent[x]?.getD x)) := by
  rw [ufFind]
  simp [hf, h]

/-- Evaluation of the candidate filter for segment 5 of `bp7out`. -/
theorem acceptedTargets_bp7out_5 :
    acceptedTargets bp7out 10 5 [1, 2, 4, 0] = [1, 0] := by
  have hd1 : segmentToSegmentDistSq 20 3 10 3 10 0 20 0 = 9 := by
    norm_num [segmentToSegmentDistSq, pointToSegmentDistSq]
  have hd0 : segmentToSegmentDistSq 20 3 10 3 0 0 10 0 = 9 := by
    norm_num [segmentToSegmentDistSq, pointToSegmentDistSq]
  norm_num [acceptedTargets, bp7out, routeSeparationM, minRouteSeparationM,
    toleranceM, hd1, hd0, List.filter_cons, List.filter_nil,
    List.getD_cons_zero, List.getD_cons_succ]

/-- Full evaluation of the spatial grouping on `bp7out`: the union of
segment 5 with both distant partners 0 and 1 places the path-adjacent
segments 0 and 1 (separation 10 m) into one group. -/
theorem segmentSpatialGroups_bp7out : segmentSpatialGroups bp7out 10 6 = ([0, 0, 1, 2, 3, 0], 4) := by
  have hg0 : groupStep bp7out 10
      { parent := [0, 1, 2, 3, 4, 5], rank := [0, 0, 0, 0, 0, 0],
        cells := [] } 0 =
      { parent := [0, 1, 2, 3, 4, 5], rank := [0, 0, 0, 0, 0, 0],
        cells := [((0, 0), [0]), ((1, 0), [0]), ((2, 0), [0])] } := by
    rw [groupStep_eval bp7out 10
      { parent := [0, 1, 2, 3, 4, 5], rank := [0, 0, 0, 0, 0, 0],
        cells := [] } 0 (0, 0) (10, 0) 10 0 100 2 5 5
      ([], [(0, 0), (1, 0), (2, 0)]) [] ([0, 1, 2, 3, 4, 5], [0, 0, 0, 0, 0, 0])
      rfl rfl (by norm_num) (by norm_num) (by norm_num)
      (by norm_num [sampleStepM]) (by norm_num [toleranceM])
      (by rw [ceilSqrtDiv_100_2]; rfl)
      (by norm_num [collectCandidates, cellsGet, setAdd, neighborOffsets,
        List.range_succ]
          all_goals simp +decide)
      rfl rfl]
    simp +decide [cellsAdd]
  have hg1 : groupStep bp7out 10
      { parent := [0, 1, 2, 3, 4, 5], rank := [0, 0, 0, 0, 0, 0],
        cells := [((0, 0), [0]), ((1, 0), [0]), ((2, 0), [0])] } 1 =
      { parent := [0, 1, 2, 3, 4, 5], rank := [0, 0, 0, 0, 0, 0],
        cells := [((0, 0), [0]), ((1, 0), [0]), ((2, 0), [0, 1]),
          ((3, 0), [1]), ((4, 0), [1])] } := by
    rw [groupStep_eval bp7out 10
      { parent := [0, 1, 2, 3, 4, 5], rank := [0, 0, 0, 0, 0, 0],
        cells := [((0, 0), [0]), ((1, 0), [0]), ((2, 0), [0])] } 1
      (10, 0) (20, 0) 10 0 100 2 5 5
      ([0], [(2, 0), (3, 0), (4, 0)]) [] ([0, 1, 2, 3, 4, 5], [0, 0, 0, 0, 0, 0])
      rfl rfl (by norm_num) (by norm_num) (by norm_num)
      (by norm_num [sampleStepM]) (by norm_num [toleranceM])
      (by rw [ceilSqrtDiv_100_2]; rfl)
      (by norm_num [collectCandidates, cellsGet, setAdd, neighborOffsets,
        List.range_succ]
          all_goals simp +decide)
      (by norm_num [acceptedTargets, bp7out, routeSeparationM,
        minRouteSeparationM, List.filter_cons, List.filter_nil])
      rfl]
    simp +decide [cellsAdd]
  have hg2 : groupStep bp7out 10
      { parent := [0, 1, 2, 3, 4, 5], rank := [0, 0, 0, 0, 0, 0],
        cells := [((0, 0), [0]), ((1, 0), [0]), ((2, 0), [0, 1]),
          ((3, 0), [1]), ((4, 0), [1])] } 2 =
      { parent := [0, 1, 2, 3, 4, 5], rank := [0, 0, 0, 0, 0, 0],
        cells := [((0, 0), [0]), ((1, 0), [0]), ((2, 0), [0, 1]),
          ((3, 0), [1]), ((4, 0), [1, 2]), ((5, 0), [2]), ((6, 0), [2])] } := by
    rw [groupStep_eval bp7out 10
      { parent := [0, 1, 2, 3, 4, 5], rank := [0, 0, 0, 0, 0, 0],
        cells := [((0, 0), [0]), ((1, 0), [0]), ((2, 0), [0, 1]),
          ((3, 0), [1]), ((4, 0), [1])] } 2 (20, 0) (30, 0) 10 0 100 2 5 5
      ([1], [(4, 0), (5, 0), (6, 0)]) [] ([0, 1, 2, 3, 4, 5], [0, 0, 0, 0, 0, 0])
      rfl rfl (by norm_num) (by norm_num) (by norm_num)
      (by norm_num [sampleStepM]) (by norm_num [toleranceM])
      (by rw [ceilSqrtDiv_100_2]; rfl)
      (by norm_num [collectCandidates, cellsGet, setAdd, neighborOffsets,
        List.range_succ]
          all_goals simp +decide)
      (by norm_num [acceptedTargets, bp7out, routeSeparationM,
        minRouteSeparationM, List.filter_cons, List.filter_nil])
      rfl]
    simp +decide [cellsAdd]
  have hg3 : groupStep bp7out 10
      { parent := [0, 1, 2, 3, 4, 5], rank := [0, 0, 0, 0, 0, 0],
        cells := [((0, 0), [0]), ((1, 0), [0]), ((2, 0), [0, 1]),
          ((3, 0), [1]), ((4, 0), [1, 2]), ((5, 0), [2]), ((6, 0), [2])] } 3 =
      { parent := [0, 1, 2, 3, 4, 5], rank := [0, 0, 0, 0, 0, 0],
        cells := [((0, 0), [0]), ((1, 0), [0]), ((2, 0), [0, 1]),
          ((3, 0), [1]), ((4, 0), [1, 2]), ((5, 0), [2]),
          ((6, 0), [2, 3])] } := by
    rw [groupStep_eval bp7out 10
      { parent := [0, 1, 2, 3, 4, 5], rank := [0, 0, 0, 0, 0, 0],
        cells := [((0, 0), [0]), ((1, 0), [0]), ((2, 0), [0, 1]),
          ((3, 0), [1]), ((4, 0), [1, 2]), ((5, 0), [2]), ((6, 0), [2])] } 3
      (30, 0) (30, 3) 0 3 9 2 5 2
      ([2], [(6, 0)]) [] ([0, 1, 2, 3, 4, 5], [0, 0, 0, 0, 0, 0])
      rfl rfl (by norm_num) (by norm_num) (by norm_num)
      (by norm_num [sampleStepM]) (by norm_num [toleranceM])
      (by rw [ceilSqrtDiv_9_2]; rfl)
      (by norm_num [collectCandidates, cellsGet, setAdd, neighborOffsets,
        List.range_succ]
          all_goals simp +decide)
      (by norm_num [acceptedTargets, bp7out, routeSeparationM,
        minRouteSeparationM, List.filter_cons, List.filter_nil])
      rfl]
    simp +decide [cellsAdd]
  have hg4 : groupStep bp7out 10
      { parent := [0, 1, 2, 3, 4, 5], rank := [0, 0, 0, 0, 0, 0],
        cells := [((0, 0), [0]), ((1, 0), [0]), ((2, 0), [0, 1]),
          ((3, 0), [1]), ((4, 0), [1, 2]), ((5, 0), [2]),
          ((6, 0), [2, 3])] } 4 =
      { parent := [0, 1, 2, 3, 4, 5], rank := [0, 0, 0, 0, 0, 0],
        cells := [((0, 0), [0]), ((1, 0), [0]), ((2, 0), [0, 1]),
          ((3, 0), [1]), ((4, 0), [1, 2, 4]), ((5, 0), [2, 4]),
          ((6, 0), [2, 3, 4])] } := by
    rw [groupStep_eval bp7out 10
      { parent := [0, 1, 2, 3, 4, 5], rank := [0, 0, 0, 0, 0, 0],
        cells := [((0, 0), [0]), ((1, 0), [0]), ((2, 0), [0, 1]),
          ((3, 0), [1]), ((4, 0), [1, 2]), ((5, 0), [2]),
          ((6, 0), [2, 3])] } 4 (30, 3) (20, 3) (-10) 0 100 2 5 5
      ([2, 3, 1], [(6, 0), (5, 0), (4, 0)]) []
      ([0, 1, 2, 3, 4, 5], [0, 0, 0, 0, 0, 0])
      rfl rfl (by norm_num) (by norm_num) (by norm_num)
      (by norm_num [sampleStepM]) (by norm_num [toleranceM])
      (by rw [ceilSqrtDiv_100_2]; rfl)
      (by norm_num [collectCandidates, cellsGet, setAdd, neighborOffsets,
        List.range_succ]
          all_goals simp +decide)
      (by norm_num [acceptedTargets, bp7out, routeSeparationM,
        minRouteSeparationM, List.filter_cons, List.filter_nil])
      rfl]
    simp +decide [cellsAdd]
  have hg5 : groupStep bp7out 10
      { parent := [0, 1, 2, 3, 4, 5], rank := [0, 0, 0, 0, 0, 0],
        cells := [((0, 0), [0]), ((1, 0), [0]), ((2, 0), [0, 1]),
          ((3, 0), [1]), ((4, 0), [1, 2, 4]), ((5, 0), [2, 4]),
          ((6, 0), [2, 3, 4])] } 5 =
      { parent := [5, 5, 2, 3, 4, 5], rank := [0, 0, 0, 0, 0, 1],
        cells := [((0, 0), [0]), ((1, 0), [0]), ((2, 0), [0, 1, 5]),
          ((3, 0), [1, 5]), ((4, 0), [1, 2, 4, 5]), ((5, 0), [2, 4]),
          ((6, 0), [2, 3, 4])] } := by
    rw [groupStep_eval bp7out 10
      { parent := [0, 1, 2, 3, 4, 5], rank := [0, 0, 0, 0, 0, 0],
        cells := [((0, 0), [0]), ((1, 0), [0]), ((2, 0), [0, 1]),
          ((3, 0), [1]), ((4, 0), [1, 2, 4]), ((5, 0), [2, 4]),
          ((6, 0), [2, 3, 4])] } 5 (20, 3) (10, 3) (-10) 0 100 2 5 5
      ([1, 2, 4, 0], [(4, 0), (3, 0), (2, 0)]) [1, 0]
      ([5, 5, 2, 3, 4, 5], [0, 0, 0, 0, 0, 1])
      rfl rfl (by norm_num) (by norm_num) (by norm_num)
      (by norm_num [sampleStepM]) (by norm_num [toleranceM])
      (by rw [ceilSqrtDiv_100_2]; rfl)
      (by norm_num [collectCandidates, cellsGet, setAdd, neighborOffsets,
        List.range_succ]
          all_goals simp +decide)
      acceptedTargets_bp7out_5
      (by norm_num [ufUnion, ufFind_stop, List.foldl_cons, List.foldl_nil])]
    simp +decide [cellsAdd]
  have hfold : List.foldl (groupStep bp7out 10)
      { parent := [0, 1, 2, 3, 4, 5], rank := [0, 0, 0, 0, 0, 0],
        cells := [] } [0, 1, 2, 3, 4, 5] =
      { parent := [5, 5, 2, 3, 4, 5], rank := [0, 0, 0, 0, 0, 1],
        cells := [((0, 0), [0]), ((1, 0), [0]), ((2, 0), [0, 1, 5]),
          ((3, 0), [1, 5]), ((4, 0), [1, 2, 4, 5]), ((5, 0), [2, 4]),
          ((6, 0), [2, 3, 4])] } := by
    simp only [List.foldl_cons, List.foldl_nil]
    rw [hg0, hg1, hg2, hg3, hg4, hg5]
  simp only [segmentSpatialGroups]
  rw [show (List.range 6 : List ℕ) = [0, 1, 2, 3, 4, 5] from rfl,
    show (List.replicate 6 (0 : ℕ)) = [0, 0, 0, 0, 0, 0] from rfl, hfold]
  norm_num [ufFind_stop, ufFind_step, rootLookup, List.foldl_cons,
    List.foldl_nil]

/-- Claim C2 (amended): every *directly* unioned partner respects the
minimum route separation: whenever the candidate filter of
`segmentSpatialGroups` accepts `j` as a union partner of `i`, the
path-distance separation of `i` and `j` is at least
`minRouteSeparationM` (MapView.tsx 227-231 rejects any closer
candidate).  Transitive union through a distant hub segment can still
place two close segments in one group (see the counterexample). -/
theorem acceptedTargets_respects_minSeparation (bp : List (ℚ × ℚ)) (L : ℚ)
    (i : ℕ) (cands : List ℕ) (j : ℕ)
    (hj : j ∈ acceptedTargets bp L i cands) :
    minRouteSeparationM L ≤ routeSeparationM i j L := by
  simp only [acceptedTargets] at hj
  have h1 := (List.mem_filter.mp (List.mem_filter.mp hj).1).2
  exact not_lt.mp (of_decide_eq_true h1)

/-- Witness for the amended Claim C2 theorem: on `bp7out`, segment 5
accepts segment 1 (separation 40 m = the threshold), and the theorem
applies. -/
theorem acceptedTargets_respects_minSeparation_witness :
    (1 ∈ acceptedTargets bp7out 10 5 [1, 2, 4, 0]) ∧
      minRouteSeparationM 10 ≤ routeSeparationM 5 1 10 := by
  have hm : 1 ∈ acceptedTargets bp7out 10 5 [1, 2, 4, 0] := by
    rw [acceptedTargets_bp7out_5]
    simp
  exact ⟨hm,
    acceptedTargets_respects_minSeparation bp7out 10 5 [1, 2, 4, 0] 1 hm⟩

/-- Claim C2 (counterexample): on `bp7out` with 10 m segments the
path-adjacent segments 0 and 1 (separation 10 m, far below the 40 m
minimum route separation) end up in the *same* spatial group, because
the far return segment 5 unions with both: the grouping does place two
segments whose path-distance separation is below the threshold into one
group. -/
theorem adjacent_segments_share_group :
    routeSeparationM 0 1 10 < minRouteSeparationM 10 ∧
      (segmentSpatialGroups bp7out 10 6).1.getD 0 0 =
        (segmentSpatialGroups bp7out 10 6).1.getD 1 0 := by
  refine ⟨by norm_num [routeSeparationM, minRouteSeparationM], ?_⟩
  rw [segmentSpatialGroups_bp7out]
  rfl


end RaceFlow
